import Mathlib

/-!
# chat0 backend: the unified stream protocol and the request dispatcher

A shallow embedding of `backend/handlers/chat.go`, `backend/handlers/completion.go`
and `backend/models/config.go`.

Modelling conventions.

* A Go `string` that holds valid UTF-8 is modelled by its sequence of code points
  (`GoString = List Char`); its length in bytes is the UTF-8 length.  Every text the
  adapters re-encode comes out of a JSON decoder (`json.Unmarshal`, the provider SDK),
  which only produces valid UTF-8.
* The response writer is modelled by the list of writes made to it: every
  `fmt.Fprintf(w, ...)` of the source contributes one element, in order.  `w.Flush()`
  and `time.Sleep` do not change the bytes written and are left out.
* A pointer of the provider SDK that the program dereferences is an `Option`, `none`
  being nil; a dereference of nil is a panic, which ends the run.
* Code outside the repository (the Go standard library, gin, the provider SDK, the
  upstream services) is either modelled from its documented behaviour, with a note,
  or taken as an input of the function that calls it.
-/

namespace Chat0

/-- A Go string holding valid UTF-8, as the sequence of its code points. -/
abbrev GoString := List Char

/-! ## `encoding/json`: encoding a string (standard library, `escapeHTML = true`) -/

/-- One lower-case hexadecimal digit (`hex[n]` with `hex = "0123456789abcdef"`). -/
def hexDigit (n : Nat) : Char :=
  if n < 10 then Char.ofNat (48 + n) else Char.ofNat (87 + n)

/-- What `json.Marshal` writes for one code point of a string: the quote and the
backslash get a backslash; `\b`, `\f`, `\n`, `\r`, `\t` get their short escape; the
other control characters and `<`, `>`, `&` are written `\u00XX`; U+2028 and U+2029 are
written `\u2028` and `\u2029`; every other code point is copied.  (The short escapes
of `\b` and `\f` are those of Go 1.22 and later; the program ranges over an iterator
function, so it is built with Go 1.23 or later.) -/
def jsonEscape (c : Char) : List Char :=
  if c = '"' then ['\\', '"']
  else if c = '\\' then ['\\', '\\']
  else if c = '\x08' then ['\\', 'b']
  else if c = '\x0c' then ['\\', 'f']
  else if c = '\n' then ['\\', 'n']
  else if c = '\r' then ['\\', 'r']
  else if c = '\t' then ['\\', 't']
  else if c.toNat < 0x20 ∨ c = '<' ∨ c = '>' ∨ c = '&' then
    ['\\', 'u', '0', '0', hexDigit (c.toNat / 16), hexDigit (c.toNat % 16)]
  else if c.toNat = 0x2028 ∨ c.toNat = 0x2029 then
    ['\\', 'u', '2', '0', '2', hexDigit (c.toNat % 16)]
  else [c]

/-- The bytes `json.Marshal(s)` returns for a string `s`: the escaped code points
between two double quotes.  (`json.Marshal` never fails on a string.) -/
def jsonMarshal (s : GoString) : List Char :=
  '"' :: (s.flatMap jsonEscape ++ ['"'])

/-! ## Decoding a JSON string literal (RFC 8259), the reader's side of the protocol -/

/-- Value of one hexadecimal digit. -/
def hexVal (c : Char) : Option Nat :=
  if '0' ≤ c ∧ c ≤ '9' then some (c.toNat - 48)
  else if 'a' ≤ c ∧ c ≤ 'f' then some (c.toNat - 87)
  else if 'A' ≤ c ∧ c ≤ 'F' then some (c.toNat - 55)
  else none

/-- Value of four hexadecimal digits. -/
def hex4 (a b c d : Char) : Option Nat :=
  match hexVal a, hexVal b, hexVal c, hexVal d with
  | some x, some y, some z, some w => some (((x * 16 + y) * 16 + z) * 16 + w)
  | _, _, _, _ => none

/-- The low surrogate escape `\uXXXX` that may follow a high surrogate escape: its
value and the text after it. -/
def lowSurrogate (rest : List Char) : Option (Nat × List Char) :=
  match rest with
  | bs :: u :: a :: b :: c :: d :: rest1 =>
    if bs = '\\' ∧ u = 'u' then
      match hex4 a b c d with
      | some m => if 0xDC00 ≤ m ∧ m < 0xE000 then some (m, rest1) else none
      | none => none
    else none
  | _ => none

/-- Decodes what follows `\u`: four hexadecimal digits; a high surrogate followed by a
low surrogate escape gives one code point, any other surrogate gives U+FFFD. -/
def decodeUnicode (rest : List Char) : Option (Char × List Char) :=
  match rest with
  | a :: b :: c :: d :: rest2 =>
    match hex4 a b c d with
    | none => none
    | some n =>
      if 0xD800 ≤ n ∧ n < 0xDC00 then
        match lowSurrogate rest2 with
        | some (m, rest3) =>
          some (Char.ofNat (0x10000 + (n - 0xD800) * 0x400 + (m - 0xDC00)), rest3)
        | none => some (Char.ofNat 0xFFFD, rest2)
      else if 0xDC00 ≤ n ∧ n < 0xE000 then some (Char.ofNat 0xFFFD, rest2)
      else some (Char.ofNat n, rest2)
  | _ => none

/-- Decodes what follows a backslash: `"`, `\`, `/`, `b`, `f`, `n`, `r`, `t` or
`uXXXX`. -/
def decodeEscape (rest : List Char) : Option (Char × List Char) :=
  match rest with
  | [] => none
  | e :: rest1 =>
    if e = 'u' then decodeUnicode rest1
    else if e = '"' then some ('"', rest1)
    else if e = '\\' then some ('\\', rest1)
    else if e = '/' then some ('/', rest1)
    else if e = 'b' then some ('\x08', rest1)
    else if e = 'f' then some ('\x0c', rest1)
    else if e = 'n' then some ('\n', rest1)
    else if e = 'r' then some ('\r', rest1)
    else if e = 't' then some ('\t', rest1)
    else none

/-- Decodes the first item inside a JSON string literal, an escape or an unescaped
code point: the code point it stands for and the text after it.  A raw control
character and a bare quote are refused. -/
def decodeItem (cs : List Char) : Option (Char × List Char) :=
  match cs with
  | [] => none
  | c :: rest =>
    if c = '\\' then decodeEscape rest
    else if c = '"' ∨ c.toNat < 0x20 then none
    else some (c, rest)

/-- Decodes items up to the closing quote, which must be the last character; each
step uses one unit of `fuel`. -/
def decodeItems : Nat → List Char → Option (List Char)
  | 0, _ => none
  | fuel + 1, cs =>
    if cs = ['"'] then some []
    else
      match decodeItem cs with
      | none => none
      | some (c, rest) => (decodeItems fuel rest).map (fun r => c :: r)

/-- Decodes the inside of a JSON string literal up to and including the closing
quote.  Every step consumes a character, so the length of the text is fuel enough
(`decodeItems_fuel`). -/
def decodeBody (cs : List Char) : Option (List Char) :=
  decodeItems cs.length cs

/-- JSON-decodes a text that must be exactly one string literal. -/
def jsonDecodeString (j : List Char) : Option GoString :=
  match j with
  | c :: rest => if c = '"' then decodeBody rest else none
  | [] => none

/-! ## The unified stream protocol (`handlers/chat.go`) -/

/-- The write `fmt.Fprintf(w, "0:%s\n", textJSON)`: a Text fragment chunk. -/
def textChunk (textJSON : List Char) : GoString :=
  "0:".toList ++ textJSON ++ "\n".toList

/-- The write `fmt.Fprintf(w, "3:\x7b\"message\":\"%s\"\x7d\n", errorMsg)`: an Error
chunk.  The error text is inserted as it is. -/
def errorChunk (errorMsg : GoString) : GoString :=
  "3:\x7b\"message\":\"".toList ++ errorMsg ++ "\"\x7d\n".toList

/-- The write of the fixed Terminal chunk. -/
def terminalChunk : GoString :=
  "d:\x7b\"finishReason\":\"stop\",\"usage\":\x7b\"promptTokens\":0,\"completionTokens\":0\x7d\x7d\n".toList

/-- The function `writeErrorChunk` (chat.go 207-210): the writes it makes. -/
def writeErrorChunk (errorMsg : GoString) : List GoString :=
  [errorChunk errorMsg]

/-! ## Data model (`types/chat.go`, `models/config.go`) -/

/-- The struct `types.ChatMessage`. -/
structure ChatMessage where
  Role : GoString
  Content : GoString
deriving DecidableEq, Repr

/-- The struct `types.ChatRequest`. -/
structure ChatRequest where
  Messages : List ChatMessage
  Model : GoString
deriving DecidableEq, Repr

/-- The struct `models.ModelConfig`. -/
structure ModelConfig where
  ModelID : GoString
  Provider : GoString
  HeaderKey : GoString
deriving DecidableEq, Repr

/-- The map `models.SupportedModels`, as its key/value pairs (the keys are distinct). -/
def SupportedModels : List (GoString × ModelConfig) :=
  [ ("Deepseek R1 0528".toList,
      ⟨"deepseek/deepseek-r1-0528:free".toList, "openrouter".toList, "X-OpenRouter-API-Key".toList⟩),
    ("Deepseek V3".toList,
      ⟨"deepseek/deepseek-chat-v3-0324:free".toList, "openrouter".toList, "X-OpenRouter-API-Key".toList⟩),
    ("Gemini 2.5 Pro".toList,
      ⟨"gemini-2.5-pro".toList, "google".toList, "X-Google-API-Key".toList⟩),
    ("Gemini 2.5 Flash".toList,
      ⟨"gemini-2.5-flash".toList, "google".toList, "X-Google-API-Key".toList⟩),
    ("Gemini 1.5 Flash".toList,
      ⟨"gemini-1.5-flash".toList, "google".toList, "X-Google-API-Key".toList⟩),
    ("GPT-4o".toList,
      ⟨"gpt-4o".toList, "openai".toList, "X-OpenAI-API-Key".toList⟩),
    ("GPT-4o-mini".toList,
      ⟨"gpt-4o-mini".toList, "openai".toList, "X-OpenAI-API-Key".toList⟩) ]

/-- The function `models.GetModelConfig`: `some config` stands for `(config, true)` and
`none` for `(ModelConfig\x7b\x7d, false)`. -/
def GetModelConfig (modelName : GoString) : Option ModelConfig :=
  SupportedModels.lookup modelName

/-! ## Mock adapter (chat.go 100-120) -/

/-- The function `streamMockResponse`: the writes it makes, or `none` when
`req.Messages[len(req.Messages)-1]` is out of range (the function panics). -/
def streamMockResponse (req : ChatRequest) : Option (List GoString) :=
  match req.Messages.getLast? with
  | none => none
  | some lastMessage =>
    let words : List GoString :=
      ["Mock".toList, "streaming".toList, "response".toList, "to".toList, "your".toList,
        "message".toList, lastMessage.Content]
    some (words.map (fun word => textChunk (jsonMarshal (word ++ " ".toList))) ++ [terminalChunk])

/-! ## Native-SDK adapter (chat.go 126-205) -/

/-- The `systemPrompt` literal of `streamGoogleResponse`. -/
def systemPrompt : GoString :=
  (
  "\n" ++
  "\tYou are Chat0, an ai assistant that can answer questions and help with tasks.\n" ++
  "\tBe helpful and provide relevant information\n" ++
  "\tBe respectful and polite in all interactions.\n" ++
  "\tBe engaging and maintain a conversational tone.\n" ++
  "\tAlways use LaTeX for mathematical expressions - \n" ++
  "\tInline math must be wrapped in single dollar signs:$content$\n" ++
  "\tDisplay math must be wrapped in double dollar signs: $$content$$\n" ++
  "\tDisplay math should be placed on its own line, with nothing else on that line.\n" ++
  "\tDo not nest math delimiters or mix styles.\n" ++
  "\tExamples:\n" ++
  "\t- Inline: The equation $E = mc^2$ shows mass-energy equivalence.\n" ++
  "\t- Display: \n" ++
  "\t$$\\frac\x7bd\x7d\x7bdx\x7d\\sin(x) = \\cos(x)$$").toList

/-- A `genai.Part`, of which the program reads the text. -/
structure Part where
  Text : GoString
deriving DecidableEq, Repr

/-- A `genai.Content`: a role and parts.  The parts are pointers (`[]*Part`); `none`
is the nil pointer. -/
structure Content where
  Role : GoString
  Parts : List (Option Part)
deriving DecidableEq, Repr

/-- A `genai.Candidate`, of which the program reads the content, a pointer
(`*Content`); `none` is the nil pointer, which the provider leaves when a candidate
comes without content. -/
structure Candidate where
  Content : Option Content
deriving DecidableEq, Repr

/-- A `genai.GenerateContentResponse`, of which the program reads the candidates,
pointers (`[]*Candidate`); `none` is the nil pointer. -/
structure GenerateContentResponse where
  Candidates : List (Option Candidate)
deriving DecidableEq, Repr

/-- The call `genai.NewContentFromText(text, genai.Role(role))` of the provider SDK:
the content with the single part `text` and the role given, an empty role being
replaced by `user`. -/
def NewContentFromText (text : GoString) (role : GoString) : Content :=
  ⟨if role = [] then "user".toList else role, [some ⟨text⟩]⟩

/-- The loop of chat.go 155-174 from a given value of `systemAdded`: the contents
appended for the messages, in order. -/
def buildContentsFrom (systemAdded : Bool) : List ChatMessage → List Content
  | [] => []
  | msg :: rest =>
    let role := if msg.Role = "assistant".toList then "model".toList else msg.Role
    if !systemAdded && decide (msg.Role = "user".toList) then
      NewContentFromText (systemPrompt ++ "\n\nUser: ".toList ++ msg.Content) role
        :: buildContentsFrom true rest
    else
      NewContentFromText msg.Content role :: buildContentsFrom systemAdded rest

/-- The contents `streamGoogleResponse` builds for a request (`systemAdded := false`). -/
def buildContents (messages : List ChatMessage) : List Content :=
  buildContentsFrom false messages

/-- One `(resp, err)` pair yielded by the stream of `GenerateContentStream`:
a response (`err == nil`; the SDK yields a non-nil response then), the end-of-stream
signal (`err == io.EOF`), or another error, by its text `err.Error()`. -/
inductive StreamItem where
  | resp (r : GenerateContentResponse)
  | eof
  | err (msg : GoString)
deriving DecidableEq, Repr

/-- What a run of an adapter leaves behind: the writes it made, in order, and whether
it ended in a panic (a nil pointer dereference, an index out of range) instead of
returning. -/
structure Run where
  writes : List GoString
  panicked : Bool
deriving DecidableEq, Repr

/-- The inner loop of chat.go 192-199 over the parts of one content: a Text chunk for
every part with a non-empty text, until a nil part, whose `part.Text` panics. -/
def partChunks : List (Option Part) → Run
  | [] => ⟨[], false⟩
  | none :: _ => ⟨[], true⟩
  | some part :: rest =>
    let here := if part.Text ≠ [] then [textChunk (jsonMarshal part.Text)] else []
    ⟨here ++ (partChunks rest).writes, (partChunks rest).panicked⟩

/-- The loop of chat.go 191-200 over the candidates of one response: the parts of
every candidate in order, until a nil candidate or a candidate with a nil content,
whose `cand.Content.Parts` panics. -/
def respChunks : List (Option Candidate) → Run
  | [] => ⟨[], false⟩
  | none :: _ => ⟨[], true⟩
  | some cand :: rest =>
    match cand.Content with
    | none => ⟨[], true⟩
    | some content =>
      if (partChunks content.Parts).panicked then partChunks content.Parts
      else ⟨(partChunks content.Parts).writes ++ (respChunks rest).writes,
        (respChunks rest).panicked⟩

/-- The loop of chat.go 179-205 with what follows it: on `io.EOF` or at the end of the
stream the Terminal chunk is written; on another error an Error chunk is written and
the function returns; a panic while a response is processed ends the run. -/
def googleLoop : List StreamItem → Run
  | [] => ⟨[terminalChunk], false⟩
  | StreamItem.eof :: _ => ⟨[terminalChunk], false⟩
  | StreamItem.err msg :: _ => ⟨[errorChunk msg], false⟩
  | StreamItem.resp r :: rest =>
    if (respChunks r.Candidates).panicked then respChunks r.Candidates
    else ⟨(respChunks r.Candidates).writes ++ (googleLoop rest).writes,
      (googleLoop rest).panicked⟩

/-- The function `streamGoogleResponse`.  `newClient` is the error of
`genai.NewClient`, if any, and `stream` the provider call, giving the pairs the
stream yields for the contents sent. -/
def streamGoogleResponse (newClient : Option GoString)
    (stream : List Content → List StreamItem) (req : ChatRequest) : Run :=
  match newClient with
  | some e => ⟨writeErrorChunk ("Failed to create AI client: ".toList ++ e), false⟩
  | none => googleLoop (stream (buildContents req.Messages))

/-! ## Generic-HTTP adapter (chat.go 213-333) -/

/-- The `systemPrompt` literal of `streamOpenRouterResponse`. -/
def openRouterSystemPrompt : GoString :=
  (
  "\n" ++
  "\t\tYou are Chat0, an ai assistant that can answer questions and help with tasks.\n" ++
  "\t\tBe helpful and provide relevant information\n" ++
  "\t\tBe respectful and polite in all interactions.\n" ++
  "\t\tBe engaging and maintain a conversational tone.\n" ++
  "\t\tAlways use LaTeX for mathematical expressions - \n" ++
  "\t\tInline math must be wrapped in single dollar signs: $content$\n" ++
  "\t\tDisplay math must be wrapped in double dollar signs: $$content$$\n" ++
  "\t\tDisplay math should be placed on its own line, with nothing else on that line.\n" ++
  "\t\tDo not nest math delimiters or mix styles.\n" ++
  "\t\tExamples:\n" ++
  "\t\t- Inline: The equation $E = mc^2$ shows mass-energy equivalence.\n" ++
  "\t\t- Display: \n" ++
  "\t\t$$\\frac\x7bd\x7d\x7bdx\x7d\\sin(x) = \\cos(x)$$").toList

/-- A value `json.Unmarshal` stores in an `interface\x7b\x7d`: `nil`, `bool`, `float64`
(kept as its literal), `string`, `[]interface\x7b\x7d` or `map[string]interface\x7b\x7d`. -/
inductive JsonValue where
  | null
  | bool (b : Bool)
  | number (literal : GoString)
  | str (s : GoString)
  | array (items : List JsonValue)
  | object (fields : List (GoString × JsonValue))

instance : Inhabited JsonValue := ⟨JsonValue.null⟩

/-- A `map[string]interface\x7b\x7d`; `m[key]` is `List.lookup key m`, `none` standing for
the nil interface a missing key gives. -/
abbrev JsonMap := List (GoString × JsonValue)

/-- What the scanner has learnt of the reader of the response body by the time it
deals with a line: the reader has more to give (`s.err == nil`), it has reported
`io.EOF`, or it has failed with another error, kept by its text. -/
inductive ReaderState where
  | more
  | eof
  | failed (err : GoString)
deriving DecidableEq, Repr

/-- One line of the response body as the upstream delivers it: the bytes up to, and
without, the newline that ends it (the last line may have none), and the state of
the reader when `bufio.Scanner` deals with the line.  (The scanner goes on splitting
the lines it has buffered after the reader ended, so the reader can already have
failed when a line is returned.) -/
structure UpstreamLine where
  Text : GoString
  State : ReaderState
deriving DecidableEq, Repr

/-- What the outside world answers to `streamOpenRouterResponse`: the errors of
`json.Marshal`, `http.NewRequestWithContext` and `client.Do` (if any), the status code,
the body `io.ReadAll` gives, the lines of the body the scanner is given, and what
`scanner.Err()` reports once `scanner.Scan()` has returned false at the end of the
body. -/
structure HTTPExchange where
  marshalErr : Option GoString
  newRequestErr : Option GoString
  doErr : Option GoString
  StatusCode : Nat
  Body : GoString
  lines : List UpstreamLine
  finalErr : Option GoString

/-- The constant `bufio.MaxScanTokenSize`, the size limit of the buffer of a scanner
made by `bufio.NewScanner` (chat.go 292 does not call `scanner.Buffer`). -/
def MaxScanTokenSize : Nat := 64 * 1024

/-- The text of `bufio.ErrTooLong`. -/
def ErrTooLong : GoString := "bufio.Scanner: token too long".toList

/-- The number of bytes of a string: the UTF-8 length of its code points. -/
def byteLen (s : GoString) : Nat := (s.map Char.utf8Size).sum

/-- Whether `scanner.Scan()` gives up on a line with `bufio.ErrTooLong`: the buffer
is full, `MaxScanTokenSize` bytes, and holds no newline.  A line of exactly that many
bytes is still returned when the reader has ended by the time the buffer is full. -/
def tooLong (line : UpstreamLine) : Bool :=
  decide (MaxScanTokenSize < byteLen line.Text)
    || (decide (byteLen line.Text = MaxScanTokenSize) && decide (line.State = ReaderState.more))

/-- The function `dropCR` of `bufio.ScanLines`: one trailing carriage return is not
part of the line returned. -/
def dropCR (data : GoString) : GoString :=
  if data.getLast? = some '\r' then data.dropLast else data

/-- What `scanner.Err()` reports for a state of the reader: a recorded error other
than `io.EOF`. -/
def readerErr (state : ReaderState) : Option GoString :=
  match state with
  | ReaderState.failed err => some err
  | _ => none

/-- The function `strings.HasPrefix`. -/
def HasPrefix (s p : GoString) : Bool := p.isPrefixOf s

/-- The function `strings.TrimPrefix`. -/
def TrimPrefix (s p : GoString) : GoString :=
  if HasPrefix s p then s.drop p.length else s

/-- The extraction of chat.go 314-325: a Text chunk when `choices` is a non-empty
array whose first item is an object with an object `delta` with a non-empty string
`content`; nothing otherwise. -/
def contentChunks (chunk : JsonMap) : List GoString :=
  match chunk.lookup "choices".toList with
  | some (JsonValue.array (first :: _)) =>
    match first with
    | JsonValue.object choice =>
      match choice.lookup "delta".toList with
      | some (JsonValue.object delta) =>
        match delta.lookup "content".toList with
        | some (JsonValue.str content) =>
          if content ≠ [] then [textChunk (jsonMarshal content)] else []
        | _ => []
      | _ => []
    | _ => []
  | _ => []

/-- The check of chat.go 329-331 on the value of `scanner.Err()`. -/
def scannerErrChunks (err : Option GoString) : List GoString :=
  match err with
  | some e => writeErrorChunk ("Streaming error: ".toList ++ e)
  | none => []

/-- The read loop of chat.go 292-331 over the lines of the body, with the check of
`scanner.Err()` that follows it.  For every line `scanner.Scan()` either gives up with
`bufio.ErrTooLong`, which ends the loop, or returns the line without its carriage
return as `scanner.Text()`.  `unmarshal data` is `json.Unmarshal([]byte(data),
&chunk)`: `none` when it returns an error, the map otherwise. -/
def scanLoop (unmarshal : GoString → Option JsonMap) :
    List UpstreamLine → Option GoString → List GoString
  | [], finalErr => scannerErrChunks finalErr
  | l :: rest, finalErr =>
    if tooLong l then scannerErrChunks (some ErrTooLong)
    else
      let line := dropCR l.Text
      if HasPrefix line "data: ".toList then
        let data := TrimPrefix line "data: ".toList
        if data = "[DONE]".toList then
          terminalChunk :: scannerErrChunks (readerErr l.State)
        else
          match unmarshal data with
          | none => scanLoop unmarshal rest finalErr
          | some chunk => contentChunks chunk ++ scanLoop unmarshal rest finalErr
      else scanLoop unmarshal rest finalErr

/-- The request `streamOpenRouterResponse` sends: the key of the `Authorization`
header, the model id, and the messages as (role, content) pairs. -/
structure ChatCompletionRequest where
  apiKey : GoString
  model : GoString
  messages : List (GoString × GoString)

/-- The function `streamOpenRouterResponse`.  `post` is the outside world, giving the
exchange for the request sent. -/
def streamOpenRouterResponse (unmarshal : GoString → Option JsonMap)
    (post : ChatCompletionRequest → HTTPExchange)
    (req : ChatRequest) (apiKey : GoString) (modelConfig : ModelConfig) : List GoString :=
  let messages := ("system".toList, openRouterSystemPrompt)
    :: req.Messages.map (fun msg => (msg.Role, msg.Content))
  let x := post ⟨apiKey, modelConfig.ModelID, messages⟩
  match x.marshalErr with
  | some e => writeErrorChunk ("Failed to create request: ".toList ++ e)
  | none =>
    match x.newRequestErr with
    | some e => writeErrorChunk ("Failed to create HTTP request: ".toList ++ e)
    | none =>
      match x.doErr with
      | some e => writeErrorChunk ("Failed to connect to OpenRouter: ".toList ++ e)
      | none =>
        if x.StatusCode ≠ 200 then
          writeErrorChunk ("OpenRouter API error ".toList ++ (Nat.repr x.StatusCode).toList
            ++ ": ".toList ++ x.Body)
        else scanLoop unmarshal x.lines x.finalErr

/-! ## Request dispatcher (chat.go 21-98) -/

/-- The outside world of `HandleChat`: the request headers, the process environment,
and the collaborators of the adapters. -/
structure Env where
  GetHeader : GoString → GoString
  Getenv : GoString → GoString
  newClient : Option GoString
  stream : List Content → List StreamItem
  unmarshal : GoString → Option JsonMap
  post : ChatCompletionRequest → HTTPExchange

/-- The stream adapters. -/
inductive Adapter where
  | google
  | openrouter
  | mock
deriving DecidableEq, Repr

/-- What `HandleChat` does: it answers `c.JSON(status, types.ErrorResponse\x7bError\x7d)`
and calls nothing else, or it calls one stream adapter with the key it resolved, the
adapter running as given. -/
inductive Outcome where
  | json (status : Nat) (error : GoString)
  | stream (adapter : Adapter) (apiKey : GoString) (run : Run)

/-- The fallback of chat.go 52-59: the environment variable read for a provider. -/
def envFallback (env : Env) (provider : GoString) : GoString :=
  if provider = "google".toList then env.Getenv "GOOGLE_API_KEY".toList
  else if provider = "openai".toList then env.Getenv "OPENAI_API_KEY".toList
  else if provider = "openrouter".toList then env.Getenv "OPENROUTER_API_KEY".toList
  else []

/-- The switch of chat.go 63-71: the name `envVar` put in the error message. -/
def envVarName (provider : GoString) : GoString :=
  if provider = "google".toList then "GOOGLE_API_KEY".toList
  else if provider = "openai".toList then "OPENAI_API_KEY".toList
  else if provider = "openrouter".toList then "OPENROUTER_API_KEY".toList
  else []

/-- The key of chat.go 48-60: the header of the model, then the environment. -/
def resolveAPIKey (env : Env) (modelConfig : ModelConfig) : GoString :=
  let apiKey := env.GetHeader modelConfig.HeaderKey
  if apiKey = [] then envFallback env modelConfig.Provider else apiKey

/-- The message of chat.go 74. -/
def apiKeyRequired (model : GoString) (modelConfig : ModelConfig) : GoString :=
  "API key required for ".toList ++ model ++ ". Provide via ".toList ++ modelConfig.HeaderKey
    ++ " header or ".toList ++ envVarName modelConfig.Provider
    ++ " environment variable.".toList

/-- The function `HandleChat`.  `bound` is the result of `c.ShouldBindJSON(&req)`: the
text of its error, or the request. -/
def HandleChat (env : Env) (bound : Except GoString ChatRequest) : Outcome :=
  match bound with
  | Except.error e => Outcome.json 400 ("invalid request body: ".toList ++ e)
  | Except.ok req =>
    if req.Messages.length = 0 then
      Outcome.json 400 "at least one message is required".toList
    else
      match GetModelConfig req.Model with
      | none => Outcome.json 400 ("unsupported model: ".toList ++ req.Model)
      | some modelConfig =>
        let apiKey := resolveAPIKey env modelConfig
        if apiKey = [] then
          Outcome.json 400 (apiKeyRequired req.Model modelConfig)
        else if modelConfig.Provider = "google".toList then
          Outcome.stream Adapter.google apiKey
            (streamGoogleResponse env.newClient env.stream req)
        else if modelConfig.Provider = "openrouter".toList then
          Outcome.stream Adapter.openrouter apiKey
            ⟨streamOpenRouterResponse env.unmarshal env.post req apiKey modelConfig, false⟩
        else
          Outcome.stream Adapter.mock apiKey
            (match streamMockResponse req with
              | some writes => ⟨writes, false⟩
              | none => ⟨[], true⟩)

/-! ## Title generator (completion.go 66-107) -/

/-- The `systemPrompt` literal of `generateTitleWithGemini`. -/
def titleSystemPrompt : GoString :=
  (
  "\n" ++
  "\t- you will generate a short title based on the first message a user begins a conversation with\n" ++
  "\t- ensure it is not more than 80 characters long\n" ++
  "\t- the title should be a summary of the user\x27s message\n" ++
  "\t- you should NOT answer the user\x27s message, you should only generate a summary/title\n" ++
  "\t- do not use quotes or colons").toList

/-- How a call of `generateTitleWithGemini` ends: it returns `(title, nil)`, it
returns `("", err)` with `err.Error() = msg`, or it panics on a nil pointer. -/
inductive TitleResult where
  | ok (title : GoString)
  | error (msg : GoString)
  | panic
deriving DecidableEq, Repr

/-- The function `generateTitleWithGemini`.  `newClient` is the error of
`genai.NewClient`, if any, and `generate` the call `GenerateContent` on the prompt
sent (with a nil error the SDK returns a non-nil response).  The expressions
`resp.Candidates[0].Content.Parts` and `firstPart.Text` dereference their pointers
without a check. -/
def generateTitleWithGemini (newClient : Option GoString)
    (generate : GoString → Except GoString GenerateContentResponse)
    (prompt : GoString) : TitleResult :=
  match newClient with
  | some e => TitleResult.error ("failed to create gemini client: ".toList ++ e)
  | none =>
    let fullPrompt := titleSystemPrompt ++ "\n\nUser message: ".toList ++ prompt
    match generate fullPrompt with
    | Except.error e => TitleResult.error ("failed to generate content: ".toList ++ e)
    | Except.ok resp =>
      match resp.Candidates with
      | [] => TitleResult.error "no response generated".toList
      | none :: _ => TitleResult.panic
      | some first :: _ =>
        match first.Content with
        | none => TitleResult.panic
        | some content =>
          match content.Parts with
          | [] => TitleResult.error "no response generated".toList
          | none :: _ => TitleResult.panic
          | some firstPart :: _ =>
            if firstPart.Text ≠ [] then TitleResult.ok firstPart.Text
            else TitleResult.error "unexpected response format".toList

/-! ## Reading the protocol: what a client sees -/

/-- The kinds of chunk of the unified protocol. -/
inductive ChunkKind where
  | text
  | error
  | terminal
deriving DecidableEq, Repr

/-- The kind of a chunk, read from its marker byte and the colon after it. -/
def chunkKind (chunk : GoString) : Option ChunkKind :=
  match chunk with
  | m :: colon :: _ =>
    if colon ≠ ':' then none
    else if m = '0' then some ChunkKind.text
    else if m = '3' then some ChunkKind.error
    else if m = 'd' then some ChunkKind.terminal
    else none
  | _ => none

/-- The payload of a chunk that is one newline-terminated line: what stands between
the two marker characters and the final newline, when there is no other newline. -/
def linePayload (chunk : GoString) : Option (List Char) :=
  match chunk with
  | _ :: _ :: rest =>
    if rest.getLast? = some '\n' ∧ '\n' ∉ rest.dropLast then some rest.dropLast else none
  | _ => none

/-- Decodes the JSON object of an Error chunk, an object whose only field is
`"message"` with a string value: the text of the message. -/
def decodeMessageObject (p : List Char) : Option GoString :=
  if HasPrefix p "\x7b\"message\":".toList ∧ p.getLast? = some '\x7d' then
    jsonDecodeString ((p.drop 11).dropLast)
  else none

/-- The Error chunk the protocol describes for the error text `s`: one
newline-terminated line `3:` + P where P is a JSON object whose only field
`"message"` decodes to `s`. -/
def IsErrorLine (s chunk : GoString) : Prop :=
  chunkKind chunk = some ChunkKind.error ∧
    ∃ p, linePayload chunk = some p ∧ decodeMessageObject p = some s

instance (s chunk : GoString) : Decidable (IsErrorLine s chunk) :=
  match h : linePayload chunk with
  | none => isFalse (by rintro ⟨_, p, hp, _⟩; rw [h] at hp; cases hp)
  | some p =>
    if h1 : chunkKind chunk = some ChunkKind.error ∧ decodeMessageObject p = some s then
      isTrue ⟨h1.1, p, h, h1.2⟩
    else
      isFalse (by
        rintro ⟨hk, q, hq, hd⟩
        rw [h] at hq
        cases hq
        exact h1 ⟨hk, hd⟩)

/-- The order the protocol asks of the chunks of one response: Text chunks, then at
most one closing chunk, a Terminal chunk or an Error chunk, and nothing after it. -/
def wellOrdered : List GoString → Bool
  | [] => true
  | c :: rest =>
    match rest with
    | [] => (chunkKind c).isSome
    | _ :: _ => chunkKind c == some ChunkKind.text && wellOrdered rest

/-- The role of the content built for a message: `model` for `assistant`, `user`
for an empty role, the role of the message otherwise. -/
def providerRole (msg : ChatMessage) : GoString :=
  if msg.Role = "assistant".toList then "model".toList
  else if msg.Role = [] then "user".toList
  else msg.Role

/-- The texts of the parts of a content, in order; a nil part has none. -/
def partTexts (parts : List (Option Part)) : List GoString :=
  parts.filterMap (fun part => part.map Part.Text)

/-- The texts of the parts of the candidates of a response, in order. -/
def respTexts : List (Option Candidate) → List GoString
  | [] => []
  | none :: rest => respTexts rest
  | some cand :: rest =>
    match cand.Content with
    | none => respTexts rest
    | some content => partTexts content.Parts ++ respTexts rest

/-- Whether every pointer the native-SDK loop dereferences in a response is set:
no candidate is nil, no content is nil, no part is nil. -/
def pointersSet : List (Option Candidate) → Bool
  | [] => true
  | none :: _ => false
  | some cand :: rest =>
    match cand.Content with
    | none => false
    | some content => content.Parts.all Option.isSome && pointersSet rest

/-! # Theorems -/

/-! ## Round trip of the string encoder -/

theorem hex4_hexDigit (n : Nat) (h : n < 64) :
    hex4 '0' '0' (hexDigit (n / 16)) (hexDigit (n % 16)) = some n := by
  revert n
  decide

theorem hexDigit_ne_newline (n : Nat) (h : n < 16) : hexDigit n ≠ '\n' := by
  revert n
  decide

theorem decodeItem_jsonEscape (c : Char) (rest : List Char) :
    decodeItem (jsonEscape c ++ rest) = some (c, rest) := by
  unfold jsonEscape
  split_ifs with h1 h2 h3 h4 h5 h6 h7 h8 h9
  · subst h1; simp [decodeItem, decodeEscape]
  · subst h2; simp [decodeItem, decodeEscape]
  · subst h3; simp [decodeItem, decodeEscape]
  · subst h4; simp [decodeItem, decodeEscape]
  · subst h5; simp [decodeItem, decodeEscape]
  · subst h6; simp [decodeItem, decodeEscape]
  · subst h7; simp [decodeItem, decodeEscape]
  · have hc : c.toNat < 64 := by
      rcases h8 with h | h | h | h
      · omega
      · subst h; decide
      · subst h; decide
      · subst h; decide
    have n1 : ¬ (0xD800 ≤ c.toNat ∧ c.toNat < 0xDC00) := by omega
    have n2 : ¬ (0xDC00 ≤ c.toNat ∧ c.toNat < 0xE000) := by omega
    simp [decodeItem, decodeEscape, decodeUnicode, hex4_hexDigit _ hc, n1, n2]
  · rcases h9 with h | h
    · have : c = Char.ofNat 0x2028 := by rw [← h, Char.ofNat_toNat]
      subst this
      have e : hex4 '2' '0' '2' (hexDigit 8) = some 0x2028 := by decide
      simp [decodeItem, decodeEscape, decodeUnicode, e]
    · have : c = Char.ofNat 0x2029 := by rw [← h, Char.ofNat_toNat]
      subst this
      have e : hex4 '2' '0' '2' (hexDigit 9) = some 0x2029 := by decide
      simp [decodeItem, decodeEscape, decodeUnicode, e]
  · have h3' : ¬ c.toNat < 0x20 := fun h => h8 (Or.inl h)
    simp [decodeItem, h1, h2, h3']

theorem jsonEscape_ne_nil (c : Char) : jsonEscape c ≠ [] := by
  unfold jsonEscape
  split_ifs <;> simp

theorem jsonEscape_ne_quote (c : Char) (rest : List Char) :
    jsonEscape c ++ rest ≠ ['"'] := by
  intro h
  have h1 := decodeItem_jsonEscape c rest
  rw [h] at h1
  simp [decodeItem] at h1

theorem decodeItems_flatMap (s : GoString) (fuel : Nat) (h : s.length < fuel) :
    decodeItems fuel (s.flatMap jsonEscape ++ ['"']) = some s := by
  induction s generalizing fuel with
  | nil =>
    obtain ⟨f, rfl⟩ : ∃ f, fuel = f + 1 := ⟨fuel - 1, by simp at h; omega⟩
    simp [decodeItems]
  | cons c s ih =>
    obtain ⟨f, rfl⟩ : ∃ f, fuel = f + 1 := ⟨fuel - 1, by omega⟩
    have hf : s.length < f := by simp at h; omega
    rw [List.flatMap_cons, List.append_assoc, decodeItems]
    simp [jsonEscape_ne_quote, decodeItem_jsonEscape, ih f hf]

theorem length_le_flatMap (s : GoString) : s.length ≤ (s.flatMap jsonEscape).length := by
  induction s with
  | nil => simp
  | cons c s ih =>
    have := List.length_pos.mpr (jsonEscape_ne_nil c)
    simp only [List.flatMap_cons, List.length_append, List.length_cons]
    omega

/-- Decoding what `json.Marshal` wrote for a string gives the string back. -/
theorem jsonDecodeString_jsonMarshal (s : GoString) :
    jsonDecodeString (jsonMarshal s) = some s := by
  have := length_le_flatMap s
  simp only [jsonDecodeString, jsonMarshal, decodeBody, if_true]
  apply decodeItems_flatMap
  simp only [List.length_append, List.length_singleton]
  omega

theorem newline_not_mem_jsonEscape (c : Char) : '\n' ∉ jsonEscape c := by
  unfold jsonEscape
  split_ifs with h1 h2 h3 h4 h5 h6 h7 h8 h9
  any_goals decide
  · have hc : c.toNat < 64 := by
      rcases h8 with h | h | h | h
      · omega
      · subst h; decide
      · subst h; decide
      · subst h; decide
    have a := hexDigit_ne_newline (c.toNat / 16) (by omega)
    have b := hexDigit_ne_newline (c.toNat % 16) (by omega)
    simp [Ne.symm a, Ne.symm b]
  · have b := hexDigit_ne_newline (c.toNat % 16) (by omega)
    simp [Ne.symm b]
  · simp
    intro h
    exact h5 h.symm

/-- What `json.Marshal` writes for a string holds no raw newline. -/
theorem newline_not_mem_jsonMarshal (s : GoString) : '\n' ∉ jsonMarshal s := by
  simp only [jsonMarshal, List.mem_cons, List.mem_append, List.mem_flatMap, List.mem_singleton,
    List.not_mem_nil, or_false, not_or, not_exists, not_and]
  refine ⟨by decide, fun c _ => newline_not_mem_jsonEscape c, by decide⟩

theorem lowSurrogate_length (rest rest1 : List Char) (m : Nat)
    (h : lowSurrogate rest = some (m, rest1)) : rest1.length < rest.length := by
  unfold lowSurrogate at h
  split at h
  · split_ifs at h
    split at h
    · split_ifs at h
      simp only [Option.some.injEq, Prod.mk.injEq] at h
      rw [← h.2]
      simp only [List.length_cons]
      omega
    · simp at h
  · simp at h

theorem decodeUnicode_length (rest rest1 : List Char) (c : Char)
    (h : decodeUnicode rest = some (c, rest1)) : rest1.length < rest.length := by
  unfold decodeUnicode at h
  split at h
  · rename_i a b c1 d rest2
    split at h
    · simp at h
    · split_ifs at h
      · split at h
        · rename_i m rest3 hl
          have := lowSurrogate_length _ _ _ hl
          simp only [Option.some.injEq, Prod.mk.injEq] at h
          rw [← h.2]
          simp only [List.length_cons]
          omega
        · simp only [Option.some.injEq, Prod.mk.injEq] at h
          rw [← h.2]
          simp only [List.length_cons]
          omega
      · simp only [Option.some.injEq, Prod.mk.injEq] at h
        rw [← h.2]
        simp only [List.length_cons]
        omega
      · simp only [Option.some.injEq, Prod.mk.injEq] at h
        rw [← h.2]
        simp only [List.length_cons]
        omega
  · simp at h

theorem decodeEscape_length (rest rest1 : List Char) (c : Char)
    (h : decodeEscape rest = some (c, rest1)) : rest1.length < rest.length := by
  unfold decodeEscape at h
  split at h
  · simp at h
  · rename_i e r
    split_ifs at h
    · have := decodeUnicode_length _ _ _ h
      simp only [List.length_cons]
      omega
    all_goals
      simp only [Option.some.injEq, Prod.mk.injEq] at h
      rw [← h.2]
      simp

theorem decodeItem_length (cs rest : List Char) (c : Char)
    (h : decodeItem cs = some (c, rest)) : rest.length < cs.length := by
  unfold decodeItem at h
  split at h
  · simp at h
  · rename_i d r
    split_ifs at h
    · have := decodeEscape_length _ _ _ h
      simp only [List.length_cons]
      omega
    · simp only [Option.some.injEq, Prod.mk.injEq] at h
      rw [← h.2]
      simp

theorem decodeItems_nil (fuel : Nat) : decodeItems fuel [] = none := by
  cases fuel <;> simp [decodeItems, decodeItem]

theorem decodeItems_fuel_eq (fuel1 fuel2 : Nat) (cs : List Char)
    (h1 : cs.length ≤ fuel1) (h2 : cs.length ≤ fuel2) :
    decodeItems fuel1 cs = decodeItems fuel2 cs := by
  induction fuel1 generalizing fuel2 cs with
  | zero =>
    have : cs = [] := List.length_eq_zero.mp (by omega)
    subst this
    rw [decodeItems_nil, decodeItems_nil]
  | succ f1 ih =>
    cases fuel2 with
    | zero =>
      have : cs = [] := List.length_eq_zero.mp (by omega)
      subst this
      rw [decodeItems_nil, decodeItems_nil]
    | succ f2 =>
      simp only [decodeItems]
      split_ifs
      · rfl
      · cases hd : decodeItem cs with
        | none => rfl
        | some p =>
          obtain ⟨c, rest⟩ := p
          have := decodeItem_length _ _ _ hd
          simp only
          rw [ih f2 rest (by omega) (by omega)]

/-- The decoder never runs out of fuel: more fuel than the length of the text
changes nothing. -/
theorem decodeItems_fuel (fuel : Nat) (cs : List Char) (h : cs.length ≤ fuel) :
    decodeItems fuel cs = decodeBody cs :=
  decodeItems_fuel_eq fuel cs.length cs h (Nat.le_refl _)

/-! ## The scanner: line length and carriage return -/

theorem byteLen_append (a b : GoString) : byteLen (a ++ b) = byteLen a + byteLen b := by
  simp [byteLen]

theorem byteLen_replicate (n : Nat) (c : Char) (hc : c.utf8Size = 1) :
    byteLen (List.replicate n c) = n := by
  induction n with
  | zero => rfl
  | succ n ih =>
    rw [List.replicate_succ]
    simp only [byteLen, List.map_cons, List.sum_cons, hc] at ih ⊢
    omega

theorem tooLong_of_lt (l : UpstreamLine) (h : byteLen l.Text < MaxScanTokenSize) :
    tooLong l = false := by
  simp only [tooLong, Bool.or_eq_false_iff, decide_eq_false_iff_not, Bool.and_eq_false_imp,
    decide_eq_true_eq]
  exact ⟨by omega, fun h' => by omega⟩

theorem tooLong_of_ge_more (text : GoString) (h : MaxScanTokenSize ≤ byteLen text) :
    tooLong ⟨text, ReaderState.more⟩ = true := by
  simp only [tooLong, Bool.or_eq_true, decide_eq_true_eq, Bool.and_eq_true, and_true]
  omega

theorem dropCR_cases (t : GoString) : t = dropCR t ∨ t = dropCR t ++ ['\r'] := by
  unfold dropCR
  split_ifs with h
  · right
    exact (List.dropLast_append_getLast? _ h).symm
  · left
    rfl

theorem dropCR_data_append (x : GoString) :
    dropCR ("data: ".toList ++ x) = "data: ".toList ++ dropCR x := by
  cases x with
  | nil => decide
  | cons c x =>
    have h1 : ("data: ".toList ++ c :: x).getLast? = (c :: x).getLast? := by
      rw [List.getLast?_append, List.getLast?_eq_getLast _ (List.cons_ne_nil c x)]
      rfl
    have h2 : ("data: ".toList ++ c :: x).dropLast = "data: ".toList ++ (c :: x).dropLast := by
      rw [List.dropLast_append_of_ne_nil _ (List.cons_ne_nil c x)]
    unfold dropCR
    rw [h1, h2]
    split_ifs <;> rfl

theorem tooLong_done_line (l : UpstreamLine) (h : dropCR l.Text = "data: [DONE]".toList) :
    tooLong l = false := by
  apply tooLong_of_lt
  rcases dropCR_cases l.Text with h1 | h1
  · rw [h1, h]
    decide
  · rw [h1, h]
    decide

theorem done_iff (text : GoString) :
    (HasPrefix text "data: ".toList = true ∧ TrimPrefix text "data: ".toList = "[DONE]".toList)
      ↔ text = "data: [DONE]".toList := by
  constructor
  · rintro ⟨hp, ht⟩
    rw [TrimPrefix, hp] at ht
    simp only [if_true] at ht
    have hpre : "data: ".toList <+: text := by
      simpa [HasPrefix] using hp
    obtain ⟨r, rfl⟩ := hpre
    simp only [List.drop_left'] at ht
    have : r = "[DONE]".toList := by simpa using ht
    rw [this]
    rfl
  · rintro rfl
    decide

theorem hasPrefix_data (x : GoString) :
    HasPrefix ("data: ".toList ++ x) "data: ".toList = true := by
  simp [HasPrefix]

theorem trimPrefix_data (x : GoString) :
    TrimPrefix ("data: ".toList ++ x) "data: ".toList = x := by
  rw [TrimPrefix, hasPrefix_data]
  simp

/-! ## Kinds of the chunks written -/

theorem chunkKind_textChunk (j : List Char) : chunkKind (textChunk j) = some ChunkKind.text := by
  simp [textChunk, chunkKind]

theorem chunkKind_errorChunk (e : GoString) :
    chunkKind (errorChunk e) = some ChunkKind.error := by
  simp [errorChunk, chunkKind]

theorem chunkKind_terminalChunk : chunkKind terminalChunk = some ChunkKind.terminal := by
  decide

theorem chunkKind_contentChunks (chunk : JsonMap) :
    ∀ w ∈ contentChunks chunk, chunkKind w = some ChunkKind.text := by
  intro w hw
  unfold contentChunks at hw
  repeat' split at hw
  all_goals first
    | (simp only [List.mem_singleton] at hw; rw [hw]; exact chunkKind_textChunk _)
    | simp at hw

theorem contentChunks_content (chunk choice delta : JsonMap) (more : List JsonValue)
    (t : GoString) (ht : t ≠ [])
    (hc : chunk.lookup "choices".toList
      = some (JsonValue.array (JsonValue.object choice :: more)))
    (hde : choice.lookup "delta".toList = some (JsonValue.object delta))
    (hco : delta.lookup "content".toList = some (JsonValue.str t)) :
    contentChunks chunk = [textChunk (jsonMarshal t)] := by
  unfold contentChunks
  rw [hc]
  dsimp only
  rw [hde]
  dsimp only
  rw [hco]
  simp [ht]

/-! ## The read loop of the generic-HTTP adapter -/

theorem scanLoop_tooLong (unmarshal : GoString → Option JsonMap) (l : UpstreamLine)
    (rest : List UpstreamLine) (finalErr : Option GoString) (h : tooLong l = true) :
    scanLoop unmarshal (l :: rest) finalErr = [errorChunk ("Streaming error: ".toList ++ ErrTooLong)] := by
  simp only [scanLoop, h, if_true, scannerErrChunks, writeErrorChunk]

theorem scanLoop_done_cons (unmarshal : GoString → Option JsonMap) (l : UpstreamLine)
    (rest : List UpstreamLine) (finalErr : Option GoString)
    (h : dropCR l.Text = "data: [DONE]".toList) :
    scanLoop unmarshal (l :: rest) finalErr
      = terminalChunk :: scannerErrChunks (readerErr l.State) := by
  have h' := (done_iff (dropCR l.Text)).mpr h
  have hs := tooLong_done_line l h
  simp only [scanLoop, hs, Bool.false_eq_true, if_false, h'.1, h'.2, if_true]

/-- A line the scanner returns and that is not the terminator contributes what the
loop writes for it alone, all of it Text chunks, and the loop goes on. -/
theorem scanLoop_cons_of_ne (unmarshal : GoString → Option JsonMap) (l : UpstreamLine)
    (rest : List UpstreamLine) (finalErr : Option GoString)
    (hs : tooLong l = false) (h : dropCR l.Text ≠ "data: [DONE]".toList) :
    scanLoop unmarshal (l :: rest) finalErr
      = scanLoop unmarshal [l] none ++ scanLoop unmarshal rest finalErr
    ∧ ∀ w ∈ scanLoop unmarshal [l] none, chunkKind w = some ChunkKind.text := by
  have hn : ¬ (HasPrefix (dropCR l.Text) "data: ".toList = true
      ∧ TrimPrefix (dropCR l.Text) "data: ".toList = "[DONE]".toList) :=
    fun hh => h ((done_iff (dropCR l.Text)).mp hh)
  simp only [scanLoop, scannerErrChunks, hs, Bool.false_eq_true, if_false]
  by_cases hp : HasPrefix (dropCR l.Text) "data: ".toList = true
  · have hd : TrimPrefix (dropCR l.Text) "data: ".toList ≠ "[DONE]".toList :=
      fun hd => hn ⟨hp, hd⟩
    simp only [hp, if_true, hd, if_false]
    cases hu : unmarshal (TrimPrefix (dropCR l.Text) "data: ".toList) with
    | none => exact ⟨rfl, fun w hw => absurd hw (List.not_mem_nil w)⟩
    | some chunk =>
      exact ⟨by simp only [List.append_nil], fun w hw =>
        chunkKind_contentChunks chunk w (by simpa only [List.append_nil] using hw)⟩
  · rw [if_neg hp, if_neg hp]
    exact ⟨rfl, fun w hw => absurd hw (List.not_mem_nil w)⟩

theorem scanLoop_append_of_ne (unmarshal : GoString → Option JsonMap)
    (pre rest : List UpstreamLine) (finalErr : Option GoString)
    (hs : ∀ p ∈ pre, tooLong p = false)
    (h : ∀ p ∈ pre, dropCR p.Text ≠ "data: [DONE]".toList) :
    scanLoop unmarshal (pre ++ rest) finalErr
      = scanLoop unmarshal pre none ++ scanLoop unmarshal rest finalErr
    ∧ ∀ w ∈ scanLoop unmarshal pre none, chunkKind w = some ChunkKind.text := by
  induction pre with
  | nil => simp [scanLoop, scannerErrChunks]
  | cons l pre ih =>
    have ht := h l (List.mem_cons_self _ _)
    have hl := hs l (List.mem_cons_self _ _)
    have ih' := ih (fun p hp => hs p (List.mem_cons_of_mem _ hp))
      (fun p hp => h p (List.mem_cons_of_mem _ hp))
    have h1 := scanLoop_cons_of_ne unmarshal l (pre ++ rest) finalErr hl ht
    have h2 := scanLoop_cons_of_ne unmarshal l pre none hl ht
    constructor
    · rw [List.cons_append, h1.1, h2.1, ih'.1, List.append_assoc]
    · intro w hw
      rw [h2.1, List.mem_append] at hw
      rcases hw with hw | hw
      · exact h1.2 w hw
      · exact ih'.2 w hw

theorem countP_terminal_of_text (ws : List GoString)
    (h : ∀ w ∈ ws, chunkKind w = some ChunkKind.text) :
    ws.countP (fun w => chunkKind w == some ChunkKind.terminal) = 0 := by
  rw [List.countP_eq_zero]
  intro w hw
  simp [h w hw]

theorem countP_terminal_scannerErrChunks (err : Option GoString) :
    (scannerErrChunks err).countP (fun w => chunkKind w == some ChunkKind.terminal) = 0 := by
  cases err with
  | none => rfl
  | some e => simp [scannerErrChunks, writeErrorChunk, chunkKind_errorChunk]

theorem scanLoop_append_congr (unmarshal : GoString → Option JsonMap)
    (pre r1 r2 : List UpstreamLine) (finalErr : Option GoString)
    (h : scanLoop unmarshal r1 finalErr = scanLoop unmarshal r2 finalErr) :
    scanLoop unmarshal (pre ++ r1) finalErr = scanLoop unmarshal (pre ++ r2) finalErr := by
  induction pre with
  | nil => exact h
  | cons l pre ih =>
    by_cases hs : tooLong l = true
    · rw [List.cons_append, List.cons_append, scanLoop_tooLong _ _ _ _ hs,
        scanLoop_tooLong _ _ _ _ hs]
    · have hs' : tooLong l = false := by simpa using hs
      by_cases hd : dropCR l.Text = "data: [DONE]".toList
      · rw [List.cons_append, List.cons_append, scanLoop_done_cons _ _ _ _ hd,
          scanLoop_done_cons _ _ _ _ hd]
      · rw [List.cons_append, List.cons_append, (scanLoop_cons_of_ne _ _ _ _ hs' hd).1,
          (scanLoop_cons_of_ne unmarshal l (pre ++ r2) finalErr hs' hd).1, ih]

theorem scanLoop_malformed_cons (unmarshal : GoString → Option JsonMap) (l : UpstreamLine)
    (x : GoString) (hl : l.Text = "data: ".toList ++ x) (hs : tooLong l = false)
    (hx : unmarshal (dropCR x) = none) (hne : dropCR x ≠ "[DONE]".toList)
    (rest : List UpstreamLine) (finalErr : Option GoString) :
    scanLoop unmarshal (l :: rest) finalErr = scanLoop unmarshal rest finalErr := by
  have hd : dropCR l.Text = "data: ".toList ++ dropCR x := by
    rw [hl, dropCR_data_append]
  simp only [scanLoop, hs, Bool.false_eq_true, if_false, hd, hasPrefix_data, trimPrefix_data,
    if_true, hne, hx]

theorem scanLoop_content_cons (unmarshal : GoString → Option JsonMap) (l : UpstreamLine)
    (data : GoString) (hs : tooLong l = false)
    (hl : dropCR l.Text = "data: ".toList ++ data) (hne : data ≠ "[DONE]".toList)
    (chunk : JsonMap) (hu : unmarshal data = some chunk)
    (rest : List UpstreamLine) (finalErr : Option GoString) :
    scanLoop unmarshal (l :: rest) finalErr
      = contentChunks chunk ++ scanLoop unmarshal rest finalErr := by
  simp only [scanLoop, hs, Bool.false_eq_true, if_false, hl, hasPrefix_data, trimPrefix_data,
    if_true, hne, hu]

/-! ## Error chunks -/

/-- C1 (code at a failing input).  For the error text `say "hi"` both error paths,
`writeErrorChunk` and the mid-stream error of the native-SDK adapter, write
`3:` followed by the object with the quotes of the text left unescaped, which is
not a JSON object whose field `message` decodes to the text; for the error text
made of `a`, a newline and `b` the write is not one line. -/
theorem errorChunk_unescaped :
    writeErrorChunk "say \"hi\"".toList = ["3:\x7b\"message\":\"say \"hi\"\"\x7d\n".toList]
    ∧ streamGoogleResponse none (fun _ => [StreamItem.err "say \"hi\"".toList]) ⟨[], []⟩
        = ⟨["3:\x7b\"message\":\"say \"hi\"\"\x7d\n".toList], false⟩
    ∧ ¬ IsErrorLine "say \"hi\"".toList (errorChunk "say \"hi\"".toList)
    ∧ writeErrorChunk "a\nb".toList = ["3:\x7b\"message\":\"a\nb\"\x7d\n".toList]
    ∧ linePayload (errorChunk "a\nb".toList) = none
    ∧ ¬ IsErrorLine "a\nb".toList (errorChunk "a\nb".toList) := by
  refine ⟨by rfl, by rfl, by decide, by rfl, by decide, by decide⟩

theorem flatMap_jsonEscape_of_plain (s : GoString) (h : ∀ c ∈ s, jsonEscape c = [c]) :
    s.flatMap jsonEscape = s := by
  induction s with
  | nil => rfl
  | cons c s ih =>
    rw [List.flatMap_cons, h c (List.mem_cons_self _ _),
      ih (fun d hd => h d (List.mem_cons_of_mem _ hd))]
    rfl

theorem getLast?_append_singleton (l : List Char) (c : Char) :
    (l ++ [c]).getLast? = some c := by
  simp

/-- The defect of the error paths is the missing escaping only: for an error text
in which every code point is one that `json.Marshal` copies unchanged, the chunk
written is the Error line the protocol describes. -/
theorem errorChunk_of_plain (s : GoString) (h : ∀ c ∈ s, jsonEscape c = [c]) :
    IsErrorLine s (errorChunk s) := by
  have hnl : '\n' ∉ s := by
    intro hm
    have := h _ hm
    revert this
    decide
  have e1 : errorChunk s
      = '3' :: ':' :: (("\x7b\"message\":".toList ++ jsonMarshal s ++ ['\x7d']) ++ ['\n']) := by
    simp only [errorChunk, jsonMarshal, flatMap_jsonEscape_of_plain s h]
    simp
  refine ⟨chunkKind_errorChunk s, "\x7b\"message\":".toList ++ jsonMarshal s ++ ['\x7d'], ?_, ?_⟩
  · rw [e1]
    simp only [linePayload, getLast?_append_singleton, List.dropLast_concat, true_and]
    rw [if_pos]
    have := newline_not_mem_jsonMarshal s
    simp only [List.mem_append, not_or]
    exact ⟨⟨by decide, this⟩, by decide⟩
  · have hp : HasPrefix ("\x7b\"message\":".toList ++ jsonMarshal s ++ ['\x7d'])
        "\x7b\"message\":".toList = true := by
      simp [HasPrefix, List.append_assoc]
    simp only [decodeMessageObject, hp, getLast?_append_singleton, true_and, if_true]
    have : (List.drop 11 ("\x7b\"message\":".toList ++ jsonMarshal s ++ ['\x7d'])).dropLast
        = jsonMarshal s := by
      have : List.drop 11 ("\x7b\"message\":".toList ++ jsonMarshal s ++ ['\x7d'])
          = jsonMarshal s ++ ['\x7d'] := by
        rw [List.append_assoc]
        exact List.drop_left' rfl
      rw [this, List.dropLast_concat]
    rw [this]
    exact jsonDecodeString_jsonMarshal s

/-! ## Mock adapter -/

/-- C2 as stated fails: for the single message `hi` the payload of the last Text
chunk is the JSON encoding of `hi` followed by a space, not of `hi`. -/
theorem streamMockResponse_last_payload_counterexample :
    ∃ out, streamMockResponse ⟨[⟨"user".toList, "hi".toList⟩], "GPT-4o".toList⟩ = some out
      ∧ out[6]? = some "0:\"hi \"\n".toList
      ∧ out[6]? ≠ some (textChunk (jsonMarshal "hi".toList)) :=
  ⟨_, rfl, by decide, by decide⟩

/-- C2 (amended).  For every request with a non-empty message list,
`streamMockResponse` returns, and writes exactly eight chunks: the Text chunks of the
six fixed tokens `Mock`, `streaming`, `response`, `to`, `your`, `message`, each
followed by a space, then the Text chunk whose payload is the JSON encoding of the
content of the last message followed by a space (a payload that decodes to that
text), then the Terminal chunk with finishReason `stop`, and nothing after it. -/
theorem streamMockResponse_chunks (req : ChatRequest) (h : req.Messages ≠ []) :
    streamMockResponse req = some
      [ "0:\"Mock \"\n".toList, "0:\"streaming \"\n".toList, "0:\"response \"\n".toList,
        "0:\"to \"\n".toList, "0:\"your \"\n".toList, "0:\"message \"\n".toList,
        "0:".toList ++ jsonMarshal ((req.Messages.getLast h).Content ++ " ".toList)
          ++ "\n".toList,
        "d:\x7b\"finishReason\":\"stop\",\"usage\":\x7b\"promptTokens\":0,\"completionTokens\":0\x7d\x7d\n".toList ]
    ∧ jsonDecodeString (jsonMarshal ((req.Messages.getLast h).Content ++ " ".toList))
        = some ((req.Messages.getLast h).Content ++ " ".toList) := by
  refine ⟨?_, jsonDecodeString_jsonMarshal _⟩
  unfold streamMockResponse
  rw [List.getLast?_eq_getLast _ h]
  rfl

/-- C2 (amended) at the request with the two messages `a` and `hi`. -/
theorem streamMockResponse_chunks_witness :
    streamMockResponse ⟨[⟨"user".toList, "a".toList⟩, ⟨"user".toList, "hi".toList⟩], []⟩ = some
      [ "0:\"Mock \"\n".toList, "0:\"streaming \"\n".toList, "0:\"response \"\n".toList,
        "0:\"to \"\n".toList, "0:\"your \"\n".toList, "0:\"message \"\n".toList,
        "0:\"hi \"\n".toList,
        "d:\x7b\"finishReason\":\"stop\",\"usage\":\x7b\"promptTokens\":0,\"completionTokens\":0\x7d\x7d\n".toList ] :=
  (streamMockResponse_chunks
    ⟨[⟨"user".toList, "a".toList⟩, ⟨"user".toList, "hi".toList⟩], []⟩ (by decide)).1

/-! ## Credential resolution and the checks of `HandleChat` -/

theorem provider_of_mem (name : GoString) (cfg : ModelConfig)
    (hm : (name, cfg) ∈ SupportedModels) :
    GetModelConfig name = some cfg
    ∧ (cfg.Provider = "google".toList ∨ cfg.Provider = "openai".toList
        ∨ cfg.Provider = "openrouter".toList) := by
  simp only [SupportedModels, List.mem_cons, Prod.mk.injEq, List.mem_singleton,
    List.not_mem_nil, or_false] at hm
  rcases hm with ⟨rfl, rfl⟩ | ⟨rfl, rfl⟩ | ⟨rfl, rfl⟩ | ⟨rfl, rfl⟩ | ⟨rfl, rfl⟩ | ⟨rfl, rfl⟩
    | ⟨rfl, rfl⟩
  all_goals exact ⟨by decide, by decide⟩

theorem envVarName_cases (p : GoString)
    (hp : p = "google".toList ∨ p = "openai".toList ∨ p = "openrouter".toList) :
    (p = "google".toList ∧ envVarName p = "GOOGLE_API_KEY".toList)
    ∨ (p = "openai".toList ∧ envVarName p = "OPENAI_API_KEY".toList)
    ∨ (p = "openrouter".toList ∧ envVarName p = "OPENROUTER_API_KEY".toList) := by
  rcases hp with rfl | rfl | rfl
  · exact Or.inl ⟨rfl, by decide⟩
  · exact Or.inr (Or.inl ⟨rfl, by decide⟩)
  · exact Or.inr (Or.inr ⟨rfl, by decide⟩)

theorem envFallback_eq (env : Env) (p : GoString)
    (hp : p = "google".toList ∨ p = "openai".toList ∨ p = "openrouter".toList) :
    envFallback env p = env.Getenv (envVarName p) := by
  rcases hp with rfl | rfl | rfl
  · rfl
  · rfl
  · rfl

theorem headerKey_infix (model : GoString) (cfg : ModelConfig) :
    cfg.HeaderKey <:+: apiKeyRequired model cfg :=
  ⟨"API key required for ".toList ++ model ++ ". Provide via ".toList,
    " header or ".toList ++ envVarName cfg.Provider ++ " environment variable.".toList,
    by simp only [apiKeyRequired, List.append_assoc]⟩

theorem envVarName_infix (model : GoString) (cfg : ModelConfig) :
    envVarName cfg.Provider <:+: apiKeyRequired model cfg :=
  ⟨"API key required for ".toList ++ model ++ ". Provide via ".toList ++ cfg.HeaderKey
      ++ " header or ".toList,
    " environment variable.".toList,
    by simp only [apiKeyRequired, List.append_assoc]⟩

/-- C7.  For every entry of `SupportedModels` (found by `GetModelConfig` under its
name): its provider is one of `google`, `openai`, `openrouter`, with the environment
variable `GOOGLE_API_KEY`, `OPENAI_API_KEY`, `OPENROUTER_API_KEY`; the key resolved is
the value of the header named by the entry when that is non-empty, and the value of
that environment variable otherwise; it is empty exactly when both are; and then
`HandleChat`, for a request with messages naming that model, answers 400 with a
message that contains the header name and the (non-empty) name of the environment
variable, while with a non-empty key it calls a stream adapter with that key. -/
theorem credential_resolution (env : Env) (name : GoString) (cfg : ModelConfig)
    (hm : (name, cfg) ∈ SupportedModels) :
    GetModelConfig name = some cfg
    ∧ ((cfg.Provider = "google".toList ∧ envVarName cfg.Provider = "GOOGLE_API_KEY".toList)
      ∨ (cfg.Provider = "openai".toList ∧ envVarName cfg.Provider = "OPENAI_API_KEY".toList)
      ∨ (cfg.Provider = "openrouter".toList
          ∧ envVarName cfg.Provider = "OPENROUTER_API_KEY".toList))
    ∧ envVarName cfg.Provider ≠ []
    ∧ (env.GetHeader cfg.HeaderKey ≠ [] → resolveAPIKey env cfg = env.GetHeader cfg.HeaderKey)
    ∧ (env.GetHeader cfg.HeaderKey = [] →
        resolveAPIKey env cfg = env.Getenv (envVarName cfg.Provider))
    ∧ (resolveAPIKey env cfg = []
        ↔ env.GetHeader cfg.HeaderKey = [] ∧ env.Getenv (envVarName cfg.Provider) = [])
    ∧ ∀ req : ChatRequest, req.Model = name → req.Messages ≠ [] →
        (resolveAPIKey env cfg = [] →
          HandleChat env (Except.ok req) = Outcome.json 400 (apiKeyRequired name cfg)
          ∧ cfg.HeaderKey <:+: apiKeyRequired name cfg
          ∧ envVarName cfg.Provider <:+: apiKeyRequired name cfg)
        ∧ (resolveAPIKey env cfg ≠ [] →
          ∃ adapter run,
            HandleChat env (Except.ok req)
              = Outcome.stream adapter (resolveAPIKey env cfg) run) := by
  obtain ⟨hget, hprov⟩ := provider_of_mem name cfg hm
  have hcases := envVarName_cases cfg.Provider hprov
  have hfb := envFallback_eq env cfg.Provider hprov
  have hne : envVarName cfg.Provider ≠ [] := by
    rcases hcases with ⟨_, h⟩ | ⟨_, h⟩ | ⟨_, h⟩ <;> rw [h] <;> decide
  have h1 : env.GetHeader cfg.HeaderKey ≠ [] →
      resolveAPIKey env cfg = env.GetHeader cfg.HeaderKey := by
    intro h
    simp only [resolveAPIKey, h, if_false]
  have h2 : env.GetHeader cfg.HeaderKey = [] →
      resolveAPIKey env cfg = env.Getenv (envVarName cfg.Provider) := by
    intro h
    simp only [resolveAPIKey, h, if_true, hfb]
  refine ⟨hget, hcases, hne, h1, h2, ?_, ?_⟩
  · constructor
    · intro h
      by_cases hh : env.GetHeader cfg.HeaderKey = []
      · exact ⟨hh, by rw [← h2 hh]; exact h⟩
      · exact absurd (by rw [← h1 hh]; exact h) hh
    · rintro ⟨hh, he⟩
      rw [h2 hh, he]
  · intro req hmodel hmsgs
    have hlen : ¬ req.Messages.length = 0 := fun h => hmsgs (List.length_eq_zero.mp h)
    constructor
    · intro hk
      refine ⟨?_, headerKey_infix name cfg, envVarName_infix name cfg⟩
      simp only [HandleChat, hlen, if_false, hmodel, hget, hk, if_true]
    · intro hk
      simp only [HandleChat, hlen, if_false, hmodel, hget, hk]
      split_ifs
      · exact ⟨_, _, rfl⟩
      · exact ⟨_, _, rfl⟩
      · exact ⟨_, _, rfl⟩

/-- C7 at the entry `GPT-4o` with no header and `OPENAI_API_KEY` set to `sk`. -/
theorem credential_resolution_witness :
    resolveAPIKey
        ⟨fun _ => [], fun v => if v = "OPENAI_API_KEY".toList then "sk".toList else [],
          none, fun _ => [], fun _ => none, fun _ => ⟨none, none, none, 200, [], [], none⟩⟩
        ⟨"gpt-4o".toList, "openai".toList, "X-OpenAI-API-Key".toList⟩
      = (fun v => if v = "OPENAI_API_KEY".toList then "sk".toList else [])
          (envVarName "openai".toList) :=
  (credential_resolution
    ⟨fun _ => [], fun v => if v = "OPENAI_API_KEY".toList then "sk".toList else [],
      none, fun _ => [], fun _ => none, fun _ => ⟨none, none, none, 200, [], [], none⟩⟩
    "GPT-4o".toList ⟨"gpt-4o".toList, "openai".toList, "X-OpenAI-API-Key".toList⟩
    (by decide)).2.2.2.2.1 rfl

/-- C8 as stated fails: with no message and the unknown model `zzz` the answer is
400 with the message of the empty list, which does not contain `zzz`. -/
theorem HandleChat_unknown_model_counterexample :
    GetModelConfig "zzz".toList = none
    ∧ HandleChat
        ⟨fun _ => [], fun _ => [], none, fun _ => [], fun _ => none,
          fun _ => ⟨none, none, none, 200, [], [], none⟩⟩
        (Except.ok ⟨[], "zzz".toList⟩)
      = Outcome.json 400 "at least one message is required".toList
    ∧ ¬ ("zzz".toList <:+: "at least one message is required".toList) := by
  refine ⟨by decide, by rfl, by decide⟩

/-- C8 (amended).  For every parsed chat request: with an empty message list
`HandleChat` answers 400 (`at least one message is required`) and calls no adapter;
with a model name that is not a key of `SupportedModels` it answers 400 and calls no
adapter, and when moreover the message list is non-empty the message is
`unsupported model: ` followed by the requested name, so it contains the name.  A
stream adapter is called only when the message list is non-empty, the model is
registered, and the key resolved for it is non-empty; that key is the one passed. -/
theorem HandleChat_gate (env : Env) (req : ChatRequest) :
    (req.Messages = [] →
      HandleChat env (Except.ok req)
        = Outcome.json 400 "at least one message is required".toList)
    ∧ (GetModelConfig req.Model = none ↔ ∀ cfg, (req.Model, cfg) ∉ SupportedModels)
    ∧ (GetModelConfig req.Model = none →
        ∃ msg, HandleChat env (Except.ok req) = Outcome.json 400 msg)
    ∧ (req.Messages ≠ [] → GetModelConfig req.Model = none →
        HandleChat env (Except.ok req)
          = Outcome.json 400 ("unsupported model: ".toList ++ req.Model)
        ∧ req.Model <:+: "unsupported model: ".toList ++ req.Model)
    ∧ (∀ adapter apiKey run,
        HandleChat env (Except.ok req) = Outcome.stream adapter apiKey run →
        req.Messages ≠ [] ∧ apiKey ≠ []
        ∧ ∃ cfg, GetModelConfig req.Model = some cfg ∧ (req.Model, cfg) ∈ SupportedModels
            ∧ apiKey = resolveAPIKey env cfg) := by
  refine ⟨?_, ?_, ?_, ?_, ?_⟩
  · intro h
    simp [HandleChat, h]
  · unfold GetModelConfig
    rw [List.lookup_eq_none_iff]
    constructor
    · intro h cfg hmem
      exact absurd (h (req.Model, cfg) hmem) (by simp)
    · intro h p hp
      simp only [bne_iff_ne, ne_eq]
      intro hk
      have : p = (req.Model, p.2) := by
        rcases p with ⟨a, b⟩
        simp only at hk
        simp [hk]
      rw [this] at hp
      exact absurd hp (h p.2)
  · intro h
    by_cases hl : req.Messages.length = 0
    · exact ⟨"at least one message is required".toList,
        by simp only [HandleChat, hl, if_true]⟩
    · exact ⟨"unsupported model: ".toList ++ req.Model,
        by simp only [HandleChat, hl, if_false, h]⟩
  · intro hm h
    have hl : ¬ req.Messages.length = 0 := fun h => hm (List.length_eq_zero.mp h)
    exact ⟨by simp only [HandleChat, hl, if_false, h],
      "unsupported model: ".toList, [], List.append_nil _⟩
  · intro adapter apiKey run h
    by_cases hl : req.Messages.length = 0
    · simp only [HandleChat, hl, if_true] at h
      cases h
    · have hm : req.Messages ≠ [] := fun h => hl (by rw [h]; rfl)
      cases hg : GetModelConfig req.Model with
      | none =>
        simp only [HandleChat, hl, if_false, hg] at h
        cases h
      | some cfg =>
        have hmem : (req.Model, cfg) ∈ SupportedModels := by
          unfold GetModelConfig at hg
          obtain ⟨l1, l2, he, _⟩ := List.lookup_eq_some_iff.mp hg
          rw [he]
          simp
        simp only [HandleChat, hl, if_false, hg] at h
        split_ifs at h with hk
        all_goals
          simp only [Outcome.stream.injEq] at h
          exact ⟨hm, by rw [← h.2.1]; exact hk, cfg, rfl, hmem, h.2.1.symm⟩

/-! ## The loop of the native-SDK adapter -/

theorem partChunks_of_set (parts : List (Option Part))
    (h : parts.all Option.isSome = true) :
    partChunks parts
      = ⟨((partTexts parts).filter (fun u => decide (u ≠ []))).map
          (fun u => textChunk (jsonMarshal u)), false⟩ := by
  induction parts with
  | nil => rfl
  | cons p parts ih =>
    cases p with
    | none => simp at h
    | some part =>
      have h' : parts.all Option.isSome = true := by
        simp only [List.all_cons, Option.isSome_some, Bool.true_and] at h
        exact h
      have ih' := ih h'
      simp only [partChunks, ih', partTexts, List.filterMap_cons, Option.map_some']
      by_cases ht : part.Text = []
      · simp [ht, List.filter_cons]
      · simp [ht, List.filter_cons]

theorem respChunks_of_set (cands : List (Option Candidate))
    (h : pointersSet cands = true) :
    respChunks cands
      = ⟨((respTexts cands).filter (fun u => decide (u ≠ []))).map
          (fun u => textChunk (jsonMarshal u)), false⟩ := by
  induction cands with
  | nil => rfl
  | cons c cands ih =>
    cases c with
    | none => simp [pointersSet] at h
    | some cand =>
      cases hc : cand.Content with
      | none => simp [pointersSet, hc] at h
      | some content =>
        simp only [pointersSet, hc, Bool.and_eq_true] at h
        have hp := partChunks_of_set content.Parts h.1
        have ih' := ih h.2
        simp only [respChunks, hc, hp, ih', respTexts, Bool.false_eq_true, if_false,
          List.filter_append, List.map_append]

theorem chunkKind_partChunks (parts : List (Option Part)) :
    ∀ w ∈ (partChunks parts).writes, chunkKind w = some ChunkKind.text := by
  induction parts with
  | nil => intro w hw; simp [partChunks] at hw
  | cons p parts ih =>
    cases p with
    | none => intro w hw; simp [partChunks] at hw
    | some part =>
      intro w hw
      simp only [partChunks, List.mem_append] at hw
      rcases hw with hw | hw
      · split_ifs at hw
        · simp only [List.mem_singleton] at hw
          rw [hw]
          exact chunkKind_textChunk _
        · simp at hw
      · exact ih w hw

theorem chunkKind_respChunks (cands : List (Option Candidate)) :
    ∀ w ∈ (respChunks cands).writes, chunkKind w = some ChunkKind.text := by
  induction cands with
  | nil => intro w hw; simp [respChunks] at hw
  | cons c cands ih =>
    cases c with
    | none => intro w hw; simp [respChunks] at hw
    | some cand =>
      intro w hw
      cases hc : cand.Content with
      | none => simp [respChunks, hc] at hw
      | some content =>
        simp only [respChunks, hc] at hw
        split_ifs at hw
        · exact chunkKind_partChunks _ w hw
        · simp only [List.mem_append] at hw
          rcases hw with hw | hw
          · exact chunkKind_partChunks _ w hw
          · exact ih w hw

/-! ## Order of the chunks -/

theorem wellOrdered_text_cons (c : GoString) (rest : List GoString)
    (hc : chunkKind c = some ChunkKind.text) (hr : wellOrdered rest = true) :
    wellOrdered (c :: rest) = true := by
  cases rest with
  | nil => simp [wellOrdered, hc]
  | cons d rest => simp only [wellOrdered, hc, beq_self_eq_true, Bool.true_and]; exact hr

theorem wellOrdered_append (texts closing : List GoString)
    (ht : ∀ w ∈ texts, chunkKind w = some ChunkKind.text) (hc : wellOrdered closing = true) :
    wellOrdered (texts ++ closing) = true := by
  induction texts with
  | nil => simpa using hc
  | cons c texts ih =>
    rw [List.cons_append]
    exact wellOrdered_text_cons _ _ (ht c (List.mem_cons_self _ _))
      (ih (fun w hw => ht w (List.mem_cons_of_mem _ hw)))

theorem wellOrdered_of_text (texts : List GoString)
    (ht : ∀ w ∈ texts, chunkKind w = some ChunkKind.text) : wellOrdered texts = true := by
  have := wellOrdered_append texts [] ht rfl
  rwa [List.append_nil] at this

/-- The native-SDK read loop writes Text chunks and then at most one closing chunk,
also when it ends in a panic. -/
theorem googleLoop_wellOrdered (items : List StreamItem) :
    wellOrdered (googleLoop items).writes = true := by
  induction items with
  | nil => decide
  | cons item rest ih =>
    cases item with
    | eof => simp [googleLoop, wellOrdered, chunkKind_terminalChunk]
    | err msg => simp [googleLoop, wellOrdered, chunkKind_errorChunk]
    | resp r =>
      simp only [googleLoop]
      split_ifs
      · exact wellOrdered_of_text _ (chunkKind_respChunks _)
      · exact wellOrdered_append _ _ (chunkKind_respChunks _) ih

/-- The native-SDK adapter keeps the order of the protocol on every input. -/
theorem streamGoogleResponse_wellOrdered (newClient : Option GoString)
    (stream : List Content → List StreamItem) (req : ChatRequest) :
    wellOrdered (streamGoogleResponse newClient stream req).writes = true := by
  unfold streamGoogleResponse
  cases newClient with
  | some e => simp [writeErrorChunk, wellOrdered, chunkKind_errorChunk]
  | none => exact googleLoop_wellOrdered _

/-- The mock adapter keeps the order of the protocol whenever it returns. -/
theorem streamMockResponse_wellOrdered (req : ChatRequest) (out : List GoString)
    (h : streamMockResponse req = some out) : wellOrdered out = true := by
  unfold streamMockResponse at h
  split at h
  · simp at h
  · simp only [Option.some.injEq] at h
    subst h
    apply wellOrdered_append
    · intro w hw
      simp only [List.mem_map] at hw
      obtain ⟨_, _, rfl⟩ := hw
      exact chunkKind_textChunk _
    · decide

/-- When no terminator line comes with a recorded reader error, the read loop of the
generic-HTTP adapter keeps the order of the protocol. -/
theorem scanLoop_wellOrdered (unmarshal : GoString → Option JsonMap)
    (lines : List UpstreamLine) (finalErr : Option GoString)
    (h : ∀ l ∈ lines, dropCR l.Text = "data: [DONE]".toList → readerErr l.State = none) :
    wellOrdered (scanLoop unmarshal lines finalErr) = true := by
  induction lines with
  | nil =>
    cases finalErr with
    | none => rfl
    | some e => simp [scanLoop, scannerErrChunks, writeErrorChunk, wellOrdered, chunkKind_errorChunk]
  | cons l rest ih =>
    by_cases hs : tooLong l = true
    · rw [scanLoop_tooLong _ _ _ _ hs]
      simp [wellOrdered, chunkKind_errorChunk]
    · have hs' : tooLong l = false := by simpa using hs
      by_cases hd : dropCR l.Text = "data: [DONE]".toList
      · rw [scanLoop_done_cons _ _ _ _ hd, h l (List.mem_cons_self _ _) hd]
        decide
      · rw [(scanLoop_cons_of_ne _ _ _ _ hs' hd).1]
        exact wellOrdered_append _ _ (scanLoop_cons_of_ne unmarshal l rest finalErr hs' hd).2
          (ih (fun t ht => h t (List.mem_cons_of_mem _ ht)))

/-- The generic-HTTP adapter keeps the order of the protocol when no terminator line
comes with a recorded reader error. -/
theorem streamOpenRouterResponse_wellOrdered (unmarshal : GoString → Option JsonMap)
    (post : ChatCompletionRequest → HTTPExchange) (req : ChatRequest) (apiKey : GoString)
    (modelConfig : ModelConfig)
    (h : ∀ r, ∀ l ∈ (post r).lines,
      dropCR l.Text = "data: [DONE]".toList → readerErr l.State = none) :
    wellOrdered (streamOpenRouterResponse unmarshal post req apiKey modelConfig) = true := by
  unfold streamOpenRouterResponse
  dsimp only
  split
  · simp [writeErrorChunk, wellOrdered, chunkKind_errorChunk]
  · split
    · simp [writeErrorChunk, wellOrdered, chunkKind_errorChunk]
    · split
      · simp [writeErrorChunk, wellOrdered, chunkKind_errorChunk]
      · split_ifs
        · simp [writeErrorChunk, wellOrdered, chunkKind_errorChunk]
        · exact scanLoop_wellOrdered _ _ _ (h _)

/-- C4 (code at a failing input).  The upstream answers 200 and the scanner returns
the line `data: [DONE]` while a read error (`unexpected EOF`) is already recorded:
the generic-HTTP adapter writes the Terminal chunk and then an Error chunk, so a
chunk follows the Terminal chunk. -/
theorem streamOpenRouterResponse_error_after_terminal :
    streamOpenRouterResponse (fun _ => none)
        (fun _ => ⟨none, none, none, 200, [],
          [⟨"data: [DONE]".toList, ReaderState.failed "unexpected EOF".toList⟩],
          some "unexpected EOF".toList⟩)
        ⟨[⟨"user".toList, "hi".toList⟩], "Deepseek V3".toList⟩ "key".toList
        ⟨"deepseek/deepseek-chat-v3-0324:free".toList, "openrouter".toList,
          "X-OpenRouter-API-Key".toList⟩
      = [ "d:\x7b\"finishReason\":\"stop\",\"usage\":\x7b\"promptTokens\":0,\"completionTokens\":0\x7d\x7d\n".toList,
          "3:\x7b\"message\":\"Streaming error: unexpected EOF\"\x7d\n".toList ]
    ∧ wellOrdered
        [ "d:\x7b\"finishReason\":\"stop\",\"usage\":\x7b\"promptTokens\":0,\"completionTokens\":0\x7d\x7d\n".toList,
          "3:\x7b\"message\":\"Streaming error: unexpected EOF\"\x7d\n".toList ] = false := by
  refine ⟨by rfl, by decide⟩

theorem tooLong_replicate_suffix (c : Char) (hc : c.utf8Size = 1) (pre suf : GoString) :
    tooLong ⟨pre ++ List.replicate 65536 c ++ suf, ReaderState.more⟩ = true := by
  apply tooLong_of_ge_more
  rw [byteLen_append, byteLen_append, byteLen_replicate _ _ hc]
  have : MaxScanTokenSize = 65536 := by decide
  omega

theorem tooLong_replicate (c : Char) (hc : c.utf8Size = 1) (pre : GoString) :
    tooLong ⟨pre ++ List.replicate 65536 c, ReaderState.more⟩ = true := by
  apply tooLong_of_ge_more
  rw [byteLen_append, byteLen_replicate _ _ hc]
  have : MaxScanTokenSize = 65536 := by decide
  omega

/-- C5 as stated fails: a line of 64 KiB before the line `data: [DONE]` ends the loop
with `bufio.ErrTooLong`; only an Error chunk is written and no Terminal chunk. -/
theorem scanLoop_done_long_line_counterexample :
    scanLoop (fun _ => none)
        [⟨"data: ".toList ++ List.replicate 65536 'x', ReaderState.more⟩,
          ⟨"data: [DONE]".toList, ReaderState.more⟩] none
      = ["3:\x7b\"message\":\"Streaming error: bufio.Scanner: token too long\"\x7d\n".toList]
    ∧ List.countP (fun w => chunkKind w == some ChunkKind.terminal)
        ["3:\x7b\"message\":\"Streaming error: bufio.Scanner: token too long\"\x7d\n".toList]
      = 0 := by
  refine ⟨?_, by decide⟩
  rw [scanLoop_tooLong _ _ _ _ (tooLong_replicate 'x' (by decide) _)]
  rfl

/-- C5 (amended).  Let a line of the upstream response be `data: [DONE]` once its
trailing carriage return, if any, is dropped, let no line before it be such a line,
and let the scanner return every line before it (none is too long for its 64 KiB
buffer).  Then the read loop of the generic-HTTP adapter writes the Text chunks of
the lines before that line, then the Terminal chunk at that line (followed only by
what the check of `scanner.Err()` adds); exactly one Terminal chunk is written; and
the lines after it contribute nothing: replacing them by any others leaves the
writes unchanged. -/
theorem scanLoop_done (unmarshal : GoString → Option JsonMap)
    (pre : List UpstreamLine) (l : UpstreamLine) (post : List UpstreamLine)
    (finalErr : Option GoString)
    (hs : ∀ p ∈ pre, tooLong p = false)
    (hpre : ∀ p ∈ pre, dropCR p.Text ≠ "data: [DONE]".toList)
    (hl : dropCR l.Text = "data: [DONE]".toList) :
    scanLoop unmarshal (pre ++ l :: post) finalErr
        = scanLoop unmarshal pre none ++ terminalChunk :: scannerErrChunks (readerErr l.State)
    ∧ (∀ w ∈ scanLoop unmarshal pre none, chunkKind w = some ChunkKind.text)
    ∧ (scanLoop unmarshal (pre ++ l :: post) finalErr).countP
        (fun w => chunkKind w == some ChunkKind.terminal) = 1
    ∧ ∀ (post' : List UpstreamLine) (finalErr' : Option GoString),
        scanLoop unmarshal (pre ++ l :: post') finalErr'
          = scanLoop unmarshal (pre ++ l :: post) finalErr := by
  have key : ∀ (post' : List UpstreamLine) (fin : Option GoString),
      scanLoop unmarshal (pre ++ l :: post') fin
        = scanLoop unmarshal pre none
            ++ terminalChunk :: scannerErrChunks (readerErr l.State) := by
    intro post' fin
    rw [(scanLoop_append_of_ne unmarshal pre (l :: post') fin hs hpre).1,
      scanLoop_done_cons unmarshal l post' fin hl]
  have htext := (scanLoop_append_of_ne unmarshal pre [] none hs hpre).2
  refine ⟨key post finalErr, htext, ?_, ?_⟩
  · rw [key, List.countP_append, List.countP_cons, countP_terminal_of_text _ htext,
      countP_terminal_scannerErrChunks]
    simp [chunkKind_terminalChunk]
  · intro post' fin'
    rw [key, key]

/-- C5 (amended) at the lines `data: x`, `data: [DONE]` with a carriage return, and
`data: y`. -/
theorem scanLoop_done_witness :
    scanLoop (fun _ => none)
        ([⟨"data: x".toList, ReaderState.more⟩]
          ++ ⟨"data: [DONE]\r".toList, ReaderState.more⟩ :: [⟨"data: y".toList, ReaderState.more⟩])
        none
      = scanLoop (fun _ => none) [⟨"data: x".toList, ReaderState.more⟩] none
          ++ terminalChunk :: scannerErrChunks (readerErr ReaderState.more) :=
  (scanLoop_done (fun _ => none) [⟨"data: x".toList, ReaderState.more⟩]
    ⟨"data: [DONE]\r".toList, ReaderState.more⟩ [⟨"data: y".toList, ReaderState.more⟩] none
    (by decide) (by decide) (by decide)).1

/-- C6 as stated fails: a malformed `data: ` line of 64 KiB is not skipped; it ends
the loop with `bufio.ErrTooLong`, an Error chunk is written, and the well-formed line
after it, which alone gets its Text chunk, writes nothing. -/
theorem scanLoop_malformed_long_line_counterexample :
    scanLoop
        (fun d => if d = "ok".toList then
            some [("choices".toList, JsonValue.array [JsonValue.object
              [("delta".toList, JsonValue.object [("content".toList, JsonValue.str "hi".toList)])]])]
          else none)
        [⟨"data: ".toList ++ List.replicate 65536 '\x7b', ReaderState.more⟩,
          ⟨"data: ok".toList, ReaderState.more⟩] none
      = ["3:\x7b\"message\":\"Streaming error: bufio.Scanner: token too long\"\x7d\n".toList]
    ∧ scanLoop
        (fun d => if d = "ok".toList then
            some [("choices".toList, JsonValue.array [JsonValue.object
              [("delta".toList, JsonValue.object [("content".toList, JsonValue.str "hi".toList)])]])]
          else none)
        [⟨"data: ok".toList, ReaderState.more⟩] none
      = ["0:\"hi\"\n".toList]
    ∧ (fun d : GoString => if d = "ok".toList then
            some [("choices".toList, JsonValue.array [JsonValue.object
              [("delta".toList, JsonValue.object [("content".toList, JsonValue.str "hi".toList)])]])]
          else none) (List.replicate 65536 '\x7b') = none := by
  refine ⟨?_, by rfl, ?_⟩
  · rw [scanLoop_tooLong _ _ _ _ (tooLong_replicate '\x7b' (by decide) _)]
    rfl
  · have h : List.replicate 65536 '\x7b' ≠ "ok".toList := by
      intro h
      have := congrArg List.length h
      rw [List.length_replicate] at this
      exact absurd this (by decide)
    simp only [h, if_false]

/-- C6 (amended).  In the read loop of the generic-HTTP adapter a line `data: ` +
`x` that the scanner returns (it is not too long for the 64 KiB buffer), where `x`
without its trailing carriage return is not `[DONE]` and `json.Unmarshal` fails on
it, writes nothing and does not stop the loop: the loop goes on with the lines after
it; inserting such a line anywhere in any sequence of lines leaves the writes
unchanged; and a later line whose object has a non-empty `choices[0].delta.content`
still gets its Text chunk. -/
theorem scanLoop_malformed (unmarshal : GoString → Option JsonMap) (l : UpstreamLine)
    (x : GoString) (hl : l.Text = "data: ".toList ++ x) (hs : tooLong l = false)
    (hx : unmarshal (dropCR x) = none) (hne : dropCR x ≠ "[DONE]".toList) :
    scanLoop unmarshal [l] none = []
    ∧ (∀ (rest : List UpstreamLine) (finalErr : Option GoString),
        scanLoop unmarshal (l :: rest) finalErr = scanLoop unmarshal rest finalErr)
    ∧ (∀ (pre post : List UpstreamLine) (finalErr : Option GoString),
        scanLoop unmarshal (pre ++ l :: post) finalErr
          = scanLoop unmarshal (pre ++ post) finalErr)
    ∧ (∀ (good : UpstreamLine) (y t : GoString) (chunk choice delta : JsonMap)
        (more : List JsonValue),
        tooLong good = false → dropCR good.Text = "data: ".toList ++ y →
        y ≠ "[DONE]".toList → t ≠ [] →
        unmarshal y = some chunk →
        chunk.lookup "choices".toList = some (JsonValue.array (JsonValue.object choice :: more)) →
        choice.lookup "delta".toList = some (JsonValue.object delta) →
        delta.lookup "content".toList = some (JsonValue.str t) →
        scanLoop unmarshal [l, good] none = [textChunk (jsonMarshal t)]) := by
  refine ⟨?_, ?_, ?_, ?_⟩
  · rw [scanLoop_malformed_cons unmarshal l x hl hs hx hne]
    rfl
  · exact scanLoop_malformed_cons unmarshal l x hl hs hx hne
  · intro pre post finalErr
    exact scanLoop_append_congr unmarshal pre _ _ finalErr
      (scanLoop_malformed_cons unmarshal l x hl hs hx hne post finalErr)
  · intro good y t chunk choice delta more hgs hg hy ht hu hc hde hco
    rw [scanLoop_malformed_cons unmarshal l x hl hs hx hne,
      scanLoop_content_cons unmarshal good y hgs hg hy chunk hu,
      contentChunks_content chunk choice delta more t ht hc hde hco]
    rfl

/-- C6 (amended) at the malformed line `data: \x7bgarbage\x7d` placed between two lines
`data: ok` whose object carries the content `hi`. -/
theorem scanLoop_malformed_witness :
    scanLoop
      (fun d => if d = "ok".toList then
          some [("choices".toList, JsonValue.array [JsonValue.object
            [("delta".toList, JsonValue.object [("content".toList, JsonValue.str "hi".toList)])]])]
        else none)
      ([⟨"data: ok".toList, ReaderState.more⟩]
        ++ ⟨"data: ".toList ++ "\x7bgarbage\x7d".toList, ReaderState.more⟩
        :: [⟨"data: ok".toList, ReaderState.more⟩]) none
    = scanLoop
      (fun d => if d = "ok".toList then
          some [("choices".toList, JsonValue.array [JsonValue.object
            [("delta".toList, JsonValue.object [("content".toList, JsonValue.str "hi".toList)])]])]
        else none)
      ([⟨"data: ok".toList, ReaderState.more⟩] ++ [⟨"data: ok".toList, ReaderState.more⟩]) none :=
  (scanLoop_malformed
    (fun d => if d = "ok".toList then
          some [("choices".toList, JsonValue.array [JsonValue.object
            [("delta".toList, JsonValue.object [("content".toList, JsonValue.str "hi".toList)])]])]
        else none)
    ⟨"data: ".toList ++ "\x7bgarbage\x7d".toList, ReaderState.more⟩
    "\x7bgarbage\x7d".toList rfl (by decide) rfl (by decide)).2.2.1
    [⟨"data: ok".toList, ReaderState.more⟩] [⟨"data: ok".toList, ReaderState.more⟩] none

/-! ## Round trip of Text fragments -/

/-- C3 as stated fails: the fragment of 65536 letters `a` comes in a `data: ` line
longer than the 64 KiB buffer of the scanner, so the loop ends with
`bufio.ErrTooLong`: an Error chunk is written and no Text chunk for the fragment. -/
theorem text_fragment_long_line_counterexample :
    List.replicate 65536 'a' ≠ []
    ∧ scanLoop
        (fun _ => some [("choices".toList, JsonValue.array [JsonValue.object
          [("delta".toList, JsonValue.object
            [("content".toList, JsonValue.str (List.replicate 65536 'a'))])]])])
        [⟨"data: \x7b\"choices\":[\x7b\"delta\":\x7b\"content\":\"".toList
            ++ List.replicate 65536 'a' ++ "\"\x7d\x7d]\x7d".toList, ReaderState.more⟩] none
      = ["3:\x7b\"message\":\"Streaming error: bufio.Scanner: token too long\"\x7d\n".toList]
    ∧ chunkKind
        "3:\x7b\"message\":\"Streaming error: bufio.Scanner: token too long\"\x7d\n".toList
      = some ChunkKind.error := by
  refine ⟨?_, ?_, by decide⟩
  · intro h
    have := congrArg List.length h
    rw [List.length_replicate] at this
    exact absurd this (by decide)
  · rw [scanLoop_tooLong _ _ _ _ (tooLong_replicate_suffix 'a' (by decide) _ _)]
    rfl

/-- C3 (amended).  For every non-empty text fragment `t`, the JSON encoding `J` of
`t` holds no raw newline and JSON-decodes to `t`.  The read loop of the generic-HTTP
adapter writes the single line `0:` + `J` + newline for every line that the scanner
returns (it is not too long for the 64 KiB buffer) and that, without its trailing
carriage return, is `data: ` followed by an object with `t` as
`choices[0].delta.content`.  The loop of the native-SDK adapter writes, for every
response in which the pointers it dereferences are set, the line `0:` + `J` + newline
of every non-empty part text, candidates and parts in order, and nothing else. -/
theorem text_fragment_round_trip (t : GoString) (ht : t ≠ []) :
    '\n' ∉ jsonMarshal t
    ∧ jsonDecodeString (jsonMarshal t) = some t
    ∧ (∀ (unmarshal : GoString → Option JsonMap) (l : UpstreamLine) (data : GoString)
        (rest : List UpstreamLine) (finalErr : Option GoString)
        (chunk choice delta : JsonMap) (more : List JsonValue),
        tooLong l = false →
        dropCR l.Text = "data: ".toList ++ data →
        data ≠ "[DONE]".toList →
        unmarshal data = some chunk →
        chunk.lookup "choices".toList = some (JsonValue.array (JsonValue.object choice :: more)) →
        choice.lookup "delta".toList = some (JsonValue.object delta) →
        delta.lookup "content".toList = some (JsonValue.str t) →
        scanLoop unmarshal (l :: rest) finalErr
          = ("0:".toList ++ jsonMarshal t ++ "\n".toList) :: scanLoop unmarshal rest finalErr)
    ∧ (∀ (r : GenerateContentResponse) (rest : List StreamItem),
        pointersSet r.Candidates = true →
        googleLoop (StreamItem.resp r :: rest)
          = ⟨((respTexts r.Candidates).filter (fun u => decide (u ≠ []))).map
                (fun u => "0:".toList ++ jsonMarshal u ++ "\n".toList)
              ++ (googleLoop rest).writes,
            (googleLoop rest).panicked⟩) := by
  refine ⟨newline_not_mem_jsonMarshal t, jsonDecodeString_jsonMarshal t, ?_, ?_⟩
  · intro unmarshal l data rest finalErr chunk choice delta more hs hl hd hu hc hde hco
    rw [scanLoop_content_cons unmarshal l data hs hl hd chunk hu,
      contentChunks_content chunk choice delta more t ht hc hde hco]
    rfl
  · intro r rest hp
    simp only [googleLoop, respChunks_of_set r.Candidates hp, Bool.false_eq_true, if_false]
    rfl

/-- C3 (amended) at the fragment made of `é`, a double quote and a newline, carried
by the line `data: x` of the generic-HTTP adapter and by the second part of the
candidate of a response of the native-SDK adapter. -/
theorem text_fragment_round_trip_witness :
    '\n' ∉ jsonMarshal "é\"\n".toList
    ∧ jsonDecodeString (jsonMarshal "é\"\n".toList) = some "é\"\n".toList
    ∧ scanLoop
        (fun _ => some [("choices".toList, JsonValue.array [JsonValue.object
          [("delta".toList, JsonValue.object [("content".toList, JsonValue.str "é\"\n".toList)])]])])
        [⟨"data: x\r".toList, ReaderState.more⟩] none
      = ("0:".toList ++ jsonMarshal "é\"\n".toList ++ "\n".toList)
          :: scanLoop
            (fun _ => some [("choices".toList, JsonValue.array [JsonValue.object
              [("delta".toList, JsonValue.object
                [("content".toList, JsonValue.str "é\"\n".toList)])]])])
            [] none
    ∧ googleLoop [StreamItem.resp ⟨[some ⟨some ⟨"model".toList,
          [some ⟨"a".toList⟩, some ⟨[]⟩, some ⟨"é\"\n".toList⟩]⟩⟩]⟩]
      = ⟨((respTexts [some ⟨some ⟨"model".toList,
              [some ⟨"a".toList⟩, some ⟨[]⟩, some ⟨"é\"\n".toList⟩]⟩⟩]).filter
                (fun u => decide (u ≠ []))).map
              (fun u => "0:".toList ++ jsonMarshal u ++ "\n".toList)
            ++ (googleLoop []).writes,
          (googleLoop []).panicked⟩ :=
  ⟨(text_fragment_round_trip "é\"\n".toList (by decide)).1,
    (text_fragment_round_trip "é\"\n".toList (by decide)).2.1,
    (text_fragment_round_trip "é\"\n".toList (by decide)).2.2.1
      (fun _ => some [("choices".toList, JsonValue.array [JsonValue.object
          [("delta".toList, JsonValue.object [("content".toList, JsonValue.str "é\"\n".toList)])]])])
      ⟨"data: x\r".toList, ReaderState.more⟩ "x".toList [] none
      [("choices".toList, JsonValue.array [JsonValue.object
          [("delta".toList, JsonValue.object [("content".toList, JsonValue.str "é\"\n".toList)])]])]
      [("delta".toList, JsonValue.object [("content".toList, JsonValue.str "é\"\n".toList)])]
      [("content".toList, JsonValue.str "é\"\n".toList)]
      [] (by decide) (by decide) (by decide) rfl rfl rfl rfl,
    (text_fragment_round_trip "é\"\n".toList (by decide)).2.2.2
      ⟨[some ⟨some ⟨"model".toList,
          [some ⟨"a".toList⟩, some ⟨[]⟩, some ⟨"é\"\n".toList⟩]⟩⟩]⟩ [] (by decide)⟩

/-! ## Content building of the native-SDK adapter -/

theorem NewContentFromText_providerRole (msg : ChatMessage) (text : GoString) :
    NewContentFromText text
        (if msg.Role = "assistant".toList then "model".toList else msg.Role)
      = ⟨providerRole msg, [some ⟨text⟩]⟩ := by
  unfold NewContentFromText providerRole
  by_cases ha : msg.Role = "assistant".toList
  · simp only [ha, if_true]
    rfl
  · simp only [ha, if_false]

theorem buildContentsFrom_true (messages : List ChatMessage) :
    buildContentsFrom true messages
      = messages.map (fun msg => ⟨providerRole msg, [some ⟨msg.Content⟩]⟩) := by
  induction messages with
  | nil => rfl
  | cons msg rest ih =>
    simp only [buildContentsFrom, Bool.not_true, Bool.false_and, ih, List.map_cons,
      NewContentFromText_providerRole]
    rfl

theorem buildContentsFrom_false_getElem? (messages : List ChatMessage) (i : Nat)
    (msg : ChatMessage) (h : messages[i]? = some msg) :
    ((msg.Role = "user".toList
        ∧ ∀ j m, j < i → messages[j]? = some m → m.Role ≠ "user".toList) →
      (buildContentsFrom false messages)[i]?
        = some ⟨providerRole msg,
            [some ⟨systemPrompt ++ "\n\nUser: ".toList ++ msg.Content⟩]⟩)
    ∧ (¬ (msg.Role = "user".toList
        ∧ ∀ j m, j < i → messages[j]? = some m → m.Role ≠ "user".toList) →
      (buildContentsFrom false messages)[i]?
        = some ⟨providerRole msg, [some ⟨msg.Content⟩]⟩) := by
  induction messages generalizing i with
  | nil => simp at h
  | cons first rest ih =>
    by_cases hu : first.Role = "user".toList
    · have hb : buildContentsFrom false (first :: rest)
          = ⟨providerRole first,
              [some ⟨systemPrompt ++ "\n\nUser: ".toList ++ first.Content⟩]⟩
              :: buildContentsFrom true rest := by
        simp only [buildContentsFrom, hu, Bool.not_false, Bool.true_and, decide_True, if_true]
        rw [← hu, NewContentFromText_providerRole]
      rw [hb]
      cases i with
      | zero =>
        simp only [List.getElem?_cons_zero, Option.some.injEq] at h
        subst h
        exact ⟨fun _ => List.getElem?_cons_zero,
          fun hn => absurd ⟨hu, fun j m hj _ => absurd hj (Nat.not_lt_zero j)⟩ hn⟩
      | succ k =>
        simp only [List.getElem?_cons_succ] at h
        constructor
        · rintro ⟨_, hall⟩
          exact absurd hu (hall 0 first (Nat.succ_pos k) List.getElem?_cons_zero)
        · intro _
          rw [List.getElem?_cons_succ, buildContentsFrom_true, List.getElem?_map, h]
          rfl
    · have hb : buildContentsFrom false (first :: rest)
          = ⟨providerRole first, [some ⟨first.Content⟩]⟩
              :: buildContentsFrom false rest := by
        simp only [buildContentsFrom, hu, decide_False, Bool.and_false,
          NewContentFromText_providerRole]
        rfl
      rw [hb]
      cases i with
      | zero =>
        simp only [List.getElem?_cons_zero, Option.some.injEq] at h
        subst h
        exact ⟨fun hh => absurd hh.1 hu, fun _ => List.getElem?_cons_zero⟩
      | succ k =>
        simp only [List.getElem?_cons_succ] at h
        have ih' := ih k h
        have hiff : (∀ j m, j < k + 1 → (first :: rest)[j]? = some m → m.Role ≠ "user".toList)
            ↔ (∀ j m, j < k → rest[j]? = some m → m.Role ≠ "user".toList) := by
          constructor
          · intro hall j m hj hm
            exact hall (j + 1) m (by omega) (by rw [List.getElem?_cons_succ]; exact hm)
          · intro hall j m hj hm
            cases j with
            | zero =>
              simp only [List.getElem?_cons_zero, Option.some.injEq] at hm
              subst hm
              exact hu
            | succ j' =>
              rw [List.getElem?_cons_succ] at hm
              exact hall j' m (by omega) hm
        rw [List.getElem?_cons_succ, hiff]
        exact ih'

theorem buildContentsFrom_length (b : Bool) (messages : List ChatMessage) :
    (buildContentsFrom b messages).length = messages.length := by
  induction messages generalizing b with
  | nil => rfl
  | cons msg rest ih =>
    simp only [buildContentsFrom]
    split_ifs <;> simp [ih]

/-- C9 as stated fails: for a message with the empty role the content built has the
role `user`, not the role of the message unchanged. -/
theorem buildContents_empty_role_counterexample :
    buildContents [⟨[], "x".toList⟩] = [⟨"user".toList, [some ⟨"x".toList⟩]⟩]
    ∧ (⟨[], "x".toList⟩ : ChatMessage).Role ≠ "assistant".toList
    ∧ "user".toList ≠ (⟨[], "x".toList⟩ : ChatMessage).Role := by
  refine ⟨by rfl, by decide, by decide⟩

/-- C9 (amended).  The contents built by the native-SDK adapter are as many as the
messages and in their order.  The entry for a message has the role `model` when the
role of the message is `assistant`, the role `user` when the role of the message is
empty, and the role of the message otherwise, and a single text part: the system
prompt, then a blank line and `User: `, then the content of the message when it is
the first message with role `user`; the content of the message unchanged in every
other case. -/
theorem buildContents_entries (messages : List ChatMessage) :
    (buildContents messages).length = messages.length
    ∧ ∀ (i : Nat) (msg : ChatMessage), messages[i]? = some msg →
        ∃ c, (buildContents messages)[i]? = some c
          ∧ c.Role = (if msg.Role = "assistant".toList then "model".toList
              else if msg.Role = [] then "user".toList else msg.Role)
          ∧ ((msg.Role = "user".toList
                ∧ ∀ j m, j < i → messages[j]? = some m → m.Role ≠ "user".toList) →
              c.Parts = [some ⟨systemPrompt ++ "\n\nUser: ".toList ++ msg.Content⟩])
          ∧ (¬ (msg.Role = "user".toList
                ∧ ∀ j m, j < i → messages[j]? = some m → m.Role ≠ "user".toList) →
              c.Parts = [some ⟨msg.Content⟩]) := by
  refine ⟨buildContentsFrom_length false messages, ?_⟩
  intro i msg h
  have key := buildContentsFrom_false_getElem? messages i msg h
  by_cases hf : msg.Role = "user".toList
      ∧ ∀ j m, j < i → messages[j]? = some m → m.Role ≠ "user".toList
  · exact ⟨_, key.1 hf, rfl, fun _ => rfl, fun hn => absurd hf hn⟩
  · exact ⟨_, key.2 hf, rfl, fun hh => absurd hh hf, fun _ => rfl⟩

/-! ## Title extraction -/

/-- C10 (code at a failing input).  The call to the provider succeeds with a
response whose first candidate has no content: `generateTitleWithGemini` panics on
`resp.Candidates[0].Content.Parts` and returns neither a title nor the error
`no response generated`. -/
theorem generateTitleWithGemini_nil_content :
    generateTitleWithGemini none (fun _ => Except.ok ⟨[some ⟨none⟩]⟩)
        "Tell me about Rome".toList
      = TitleResult.panic
    ∧ TitleResult.panic ≠ TitleResult.error "no response generated".toList := by
  refine ⟨by rfl, by decide⟩

/-- When the client is created, the call to the provider succeeds and the pointers
of the first candidate, of its content and of its first part are set,
`generateTitleWithGemini` returns the text of the first part of the first candidate
when that text is non-empty, the error `no response generated` when there is no
candidate or the first candidate has no part, and the error `unexpected response
format` when the text of the first part is empty. -/
theorem generateTitleWithGemini_extraction
    (generate : GoString → Except GoString GenerateContentResponse)
    (prompt : GoString) (resp : GenerateContentResponse)
    (h : generate (titleSystemPrompt ++ "\n\nUser message: ".toList ++ prompt)
      = Except.ok resp) :
    (resp.Candidates = [] →
      generateTitleWithGemini none generate prompt
        = TitleResult.error "no response generated".toList)
    ∧ (∀ first content more, resp.Candidates = some first :: more →
      first.Content = some content → content.Parts = [] →
      generateTitleWithGemini none generate prompt
        = TitleResult.error "no response generated".toList)
    ∧ (∀ first content more part parts, resp.Candidates = some first :: more →
      first.Content = some content → content.Parts = some part :: parts → part.Text ≠ [] →
      generateTitleWithGemini none generate prompt = TitleResult.ok part.Text)
    ∧ (∀ first content more part parts, resp.Candidates = some first :: more →
      first.Content = some content → content.Parts = some part :: parts → part.Text = [] →
      generateTitleWithGemini none generate prompt
        = TitleResult.error "unexpected response format".toList) := by
  refine ⟨?_, ?_, ?_, ?_⟩
  · intro hc
    simp only [generateTitleWithGemini, h, hc]
  · intro first content more hc hcon hp
    simp only [generateTitleWithGemini, h, hc, hcon, hp]
  · intro first content more part parts hc hcon hp ht
    simp only [generateTitleWithGemini, h, hc, hcon, hp, ne_eq, ht, not_false_eq_true, if_true]
  · intro first content more part parts hc hcon hp ht
    simp only [generateTitleWithGemini, h, hc, hcon, hp, ne_eq, ht, not_true_eq_false, if_false]

/-- On no input does `generateTitleWithGemini` return an empty title without an
error. -/
theorem generateTitleWithGemini_ne_empty (newClient : Option GoString)
    (generate : GoString → Except GoString GenerateContentResponse) (prompt : GoString) :
    generateTitleWithGemini newClient generate prompt ≠ TitleResult.ok [] := by
  unfold generateTitleWithGemini
  cases newClient with
  | some e => simp
  | none =>
    dsimp only
    repeat' split
    all_goals simp_all

end Chat0
